import Mathlib

/-!
Verification development for the Parquet-Viewer editing core (src/main.py).

The source is a single PyQt5 controller class (`ParquetViewer`) plus two
plain classes `EditCommand` and `CommandStack`.  We shallowly embed the
edit-session state and the operations the claims are about:

* cell values and the display/str formatting blocks that are repeated
  verbatim through the source (`EditCommand.undo`/`redo`, `on_cell_changed`,
  `load_parquet_file`, `paste_cells`),
* the type-coercion switch (`on_cell_changed` lines 472-489),
* `CommandStack` (lines 59-92) and the session-level `undo_edit`/`redo_edit`,
* `on_cell_changed` (lines 449-564), `update_column_totals` (1115-1166),
  `apply_filters` (979-991), `toggle_column_sort` (877-888),
  `load_parquet_file`/`open_file` (1041-1189), `save_file` (603-627),
  `cut_cells` (1740-1766), `delete_selected_cell_contents` (1452-1490)
  and `paste_cells` (1814-1977).

Machine integers are embedded as `Int`/`Nat`.  Python floats are
idealised as exact decimal numbers `m · 10⁻ᵉ` (`Dec` below): every float
the program builds from user text is parsed from a decimal literal, and
no claim depends on binary-float rounding.  External collaborators (the
pandas datetime parser, the parquet reader/writer, dialog outcomes) are
passed in as explicit parameters.
-/

/-- `10 ^ n` on `Nat`. -/
def npow10 : Nat → Nat
  | 0 => 1
  | n + 1 => 10 * npow10 n

/-- An exact decimal number `m · 10⁻ᵉ`, the idealisation of a Python
float parsed from decimal text.  Kept normalised (no trailing factor of
ten in `m` while `e > 0`) by the smart constructors below. -/
structure Dec where
  m : Int
  e : Nat
deriving DecidableEq

/-- Remove common factors of ten from `m · 10⁻ᵉ` (fuelled by `e`). -/
def decNorm : Int → Nat → Dec
  | m, 0 => ⟨m, 0⟩
  | m, e + 1 => if m % 10 == 0 then decNorm (m / 10) e else ⟨m, e + 1⟩

/-- Exact addition of decimals. -/
def Dec.add (a b : Dec) : Dec :=
  let E := max a.e b.e
  decNorm (a.m * (npow10 (E - a.e) : Int) + b.m * (npow10 (E - b.e) : Int)) E

/-- Semantic equality of decimals (used for Python `==` across
representations; normalised decimals are also structurally equal). -/
def Dec.eqb (a b : Dec) : Bool :=
  a.m * (npow10 b.e : Int) == b.m * (npow10 a.e : Int)

/-- Truncation toward zero: the behaviour of Python `int(float(x))`. -/
def Dec.trunc (a : Dec) : Int :=
  let q : Nat := a.m.natAbs / npow10 a.e
  if a.m < 0 then -(q : Int) else (q : Int)

/-- Integer part of `|a|`. -/
def Dec.ipart (a : Dec) : Nat := a.m.natAbs / npow10 a.e

/-- Fractional digits of `|a|` as a natural number. -/
def Dec.fracNat (a : Dec) : Nat := a.m.natAbs % npow10 a.e

/-- Sum of a list of decimals. -/
def decSum (l : List Dec) : Dec := l.foldl Dec.add ⟨0, 0⟩

/-- A cell value as stored in the DataFrame / carried inside an
`EditCommand`.  `nullV` stands for Python `None` and the NaN/NaT null
markers pandas substitutes for it; `dtV s` is a timestamp whose `str`
form is `s` (the pandas `Timestamp` internals are opaque to this model). -/
inductive Value where
  | nullV : Value
  | intV (n : Int) : Value
  | floatV (d : Dec) : Value
  | boolV (b : Bool) : Value
  | strV (s : String) : Value
  | dtV (s : String) : Value
deriving DecidableEq

/-- Python `str.strip()`: remove leading and trailing whitespace. -/
def pyStrip (s : String) : String :=
  String.mk (((s.data.dropWhile Char.isWhitespace).reverse.dropWhile
    Char.isWhitespace).reverse)

/-- Python `str.lower()` (ASCII case folding; the sources only compare
against ASCII literals). -/
def pyLower (s : String) : String :=
  String.mk (s.data.map Char.toLower)

/-- `value.replace(',', '')`: drop every comma. -/
def stripCommas (s : String) : String :=
  String.mk (s.data.filter (fun ch => ch ≠ ','))

/-- Numeric value of a digit string (most significant digit first). -/
def digitsVal (ds : List Char) : Nat :=
  ds.foldl (fun acc ch => acc * 10 + (ch.toNat - 48)) 0

/-- Insert a thousands separator after every third character.  The input
is the digit list least-significant-first; used by `natComma`. -/
def group3 : List Char → List Char
  | a :: b :: c :: d :: rest => a :: b :: c :: ',' :: group3 (d :: rest)
  | l => l

/-- Python `f"{n:,}"` for a natural number: digits grouped in threes. -/
def natComma (n : Nat) : String :=
  String.mk ((group3 (toString n).data.reverse).reverse)

/-- Python `f"{n:,}"` for an integer. -/
def intComma (n : Int) : String :=
  if n < 0 then "-" ++ natComma n.natAbs else natComma n.natAbs

/-- Left-pad a digit list with zeros to width `w`. -/
def padZeros (l : List Char) (w : Nat) : List Char :=
  List.replicate (w - l.length) '0' ++ l

/-- Fractional digit string of a decimal: `e` digits, trailing zeros
stripped, `"0"` when nothing remains (Python prints `10.0` for a whole
float). -/
def fracDigitStr (a : Dec) : String :=
  let ds := (padZeros (toString a.fracNat).data a.e).reverse.dropWhile
    (fun ch => ch = '0')
  if ds.isEmpty then "0" else String.mk ds.reverse

/-- Python `f"{v:,}"` on a float value: grouped integer part, then the
fractional digits. -/
def floatDisp (a : Dec) : String :=
  (if a.m < 0 then "-" else "") ++ natComma a.ipart ++ "." ++ fracDigitStr a

/-- Python `str()` on a float value (ungrouped). -/
def floatPlain (a : Dec) : String :=
  (if a.m < 0 then "-" else "") ++ toString a.ipart ++ "." ++ fracDigitStr a

/-- The display-formatting block repeated at lines 34-41, 50-57, 505-512,
557-564, 1066-1074 and 1893-1900 of src/main.py:
`if pd.notna(v): (f"{v:,}" if isinstance(v, (int, float)) else str(v))
else ''`.  Numeric values render comma-grouped, everything else via
`str`, null as the empty string.  (Python `bool` is an `int` subclass, so
a freshly coerced bool would format as "1"/"0" there while a numpy bool
read back from the frame stringifies as "True"/"False"; no claim depends
on boolean display, and we render booleans via `str` uniformly.  Numpy
integer scalars read from an int64 column fail the `isinstance` test and
print ungrouped; we render all integers grouped — again display-only,
applied consistently on every path, so no claim's truth depends on it.) -/
def render : Value → String
  | .nullV => ""
  | .intV n => intComma n
  | .floatV d => floatDisp d
  | .boolV b => if b then "True" else "False"
  | .strV s => s
  | .dtV s => s

/-- Python `str(value)` for a stored cell value, as used by the
no-change test `str(old_value).strip() == new_value` at lines 469/531.
`str(None) = "None"` (for the float-column NaN form pandas would print
"nan"; the difference only affects which non-empty literal the no-change
test compares against, never its outcome on the inputs any claim uses). -/
def pyStr : Value → String
  | .nullV => "None"
  | .intV n => toString n
  | .floatV d => floatPlain d
  | .boolV b => if b then "True" else "False"
  | .strV s => s
  | .dtV s => s

/-- Python `==` between cell values (`converted_value == old_value`,
line 494): numbers compare across int/float/bool, other types by
structural equality.  (NaN never reaches this comparison: the
`pd.isna`/`pd.isna` test at line 492 returns first.) -/
def pyEq : Value → Value → Bool
  | .intV a, .intV b => a == b
  | .intV a, .floatV d => Dec.eqb ⟨a, 0⟩ d
  | .floatV d, .intV a => Dec.eqb d ⟨a, 0⟩
  | .floatV a, .floatV b => Dec.eqb a b
  | .boolV a, .boolV b => a == b
  | .boolV a, .intV n => ((if a then (1 : Int) else 0) == n)
  | .intV n, .boolV a => (n == (if a then (1 : Int) else 0))
  | .boolV a, .floatV d => Dec.eqb ⟨if a then 1 else 0, 0⟩ d
  | .floatV d, .boolV a => Dec.eqb d ⟨if a then 1 else 0, 0⟩
  | .strV a, .strV b => a == b
  | .dtV a, .dtV b => a == b
  | _, _ => false

/-- `pd.isna` on a stored value. -/
def isNa : Value → Bool
  | .nullV => true
  | _ => false

/-- Python `float(s)`: optional surrounding whitespace, optional sign,
digits with an optional single decimal point (at least one digit
overall), optional exponent.  Anything else — e.g. `"12x"` — raises
`ValueError`, modelled as `none`.  (The special literals `inf`/`nan`
and digit-group underscores accepted by CPython are not modelled; no
claim exercises them.) -/
def pyFloatAux (cs0 : List Char) : Option Dec :=
  let cs := cs0.dropWhile Char.isWhitespace
  let sgnNeg : Bool := match cs with
    | '-' :: _ => true
    | _ => false
  let cs1 : List Char := match cs with
    | '+' :: t => t
    | '-' :: t => t
    | _ => cs
  let ip := cs1.takeWhile Char.isDigit
  let cs2 := cs1.dropWhile Char.isDigit
  let fp : List Char := match cs2 with
    | '.' :: t => t.takeWhile Char.isDigit
    | _ => []
  let cs3 : List Char := match cs2 with
    | '.' :: t => t.dropWhile Char.isDigit
    | _ => cs2
  if ip.isEmpty && fp.isEmpty then none
  else
    let mAbs : Int := (digitsVal (ip ++ fp) : Int)
    let m : Int := if sgnNeg then -mAbs else mAbs
    match cs3 with
    | 'e' :: t | 'E' :: t =>
      let eNeg : Bool := match t with
        | '-' :: _ => true
        | _ => false
      let t1 : List Char := match t with
        | '+' :: u => u
        | '-' :: u => u
        | _ => t
      let ed := t1.takeWhile Char.isDigit
      let t2 := t1.dropWhile Char.isDigit
      if ed.isEmpty || !(t2.dropWhile Char.isWhitespace).isEmpty then none
      else if eNeg then some (decNorm m (fp.length + digitsVal ed))
      else some (decNorm (m * (npow10 (digitsVal ed) : Int)) fp.length)
    | rest =>
      if (rest.dropWhile Char.isWhitespace).isEmpty then
        some (decNorm m fp.length)
      else none

/-- Python `float` on a string. -/
def pyFloat (s : String) : Option Dec :=
  pyFloatAux s.data

/-- The per-column declared types the source dispatches on
(`self.column_types` values: pandas dtype names). -/
inductive Dtype where
  | int64 : Dtype
  | float64 : Dtype
  | boolDt : Dtype
  | datetime : Dtype
  | objectT : Dtype
deriving DecidableEq

/-- The validation/conversion switch of `on_cell_changed` lines 474-489
(repeated in `paste_cells` lines 1859-1873 and 1929-1943):
empty text → null; `int64` → `int(float(text.replace(',','')))`;
`float64` → `float(text.replace(',',''))`; `bool` →
`text.lower() in ['true','1','yes']` (never fails); `datetime64[ns]` →
`pd.to_datetime(text)` (external parser, passed in as `pdDT`); any other
registered dtype → `str(text)`.  `none` models the `ValueError`/
`TypeError` caught at line 553. -/
def coerce (pdDT : String → Option String) (v : String) (dt : Dtype) : Option Value :=
  if v = "" then some .nullV
  else
    match dt with
    | .int64 => (pyFloat (stripCommas v)).map (fun q => .intV q.trunc)
    | .float64 => (pyFloat (stripCommas v)).map .floatV
    | .boolDt => some (.boolV ((["true", "1", "yes"] : List String).contains (pyLower v)))
    | .datetime => (pdDT v).map .dtV
    | .objectT => some (.strV v)

example : pyFloat "12x" = none := by decide
example : pyFloat "10" = some ⟨10, 0⟩ := by decide
example : pyFloat "-2.5" = some ⟨-25, 1⟩ := by decide
example : pyFloat "1e2" = some ⟨100, 0⟩ := by decide
example : pyFloat "abc" = none := by decide
example : natComma 1234567 = "1,234,567" := by decide
example : floatDisp ⟨12345, 1⟩ = "1,234.5" := by decide
example : floatDisp ⟨10, 0⟩ = "10.0" := by decide
example : coerce (fun _ => none) "12x" .int64 = none := by decide
example : coerce (fun _ => none) "1,000" .int64 = some (.intV 1000) := by decide
example : coerce (fun _ => none) "YES" .boolDt = some (.boolV true) := by decide
example : coerce (fun _ => none) "false" .boolDt = some (.boolV false) := by decide
example : coerce (fun _ => none) "" .boolDt = some .nullV := by decide

/-- Read a 2-D cell (`df.iloc[r, c]` / `table.item(r, c)`); `dflt` is
the out-of-range result (a missing `QTableWidgetItem`, or the null value
for frame reads — the handlers are only invoked for existing items, so
theorems constrain indices where it matters). -/
def getCell (xs : List (List α)) (r c : Nat) (dflt : α) : α :=
  (xs.getD r []).getD c dflt

/-- Write a 2-D cell; out-of-range writes are no-ops (mirroring the
`if item:` guards around `setText`). -/
def setCell (xs : List (List α)) (r c : Nat) (a : α) : List (List α) :=
  xs.set r ((xs.getD r []).set c a)

/-- The pair of stores every mutation touches in lockstep: the backing
DataFrame (`self.original_df`) and the displayed item texts
(`self.table`). -/
structure Sheet where
  df : List (List Value)
  text : List (List String)
deriving DecidableEq

/-- `EditCommand` (src/main.py lines 23-57): an immutable list of
`(row, col, old_value, new_value)` triples. -/
structure EditCommand where
  changes : List (Nat × Nat × Value × Value)
deriving DecidableEq

/-- `EditCommand.undo` (lines 27-41): for every triple, write the old
value back into the DataFrame and reformat the item text from it. -/
def applyUndoCmd (cmd : EditCommand) (sh : Sheet) : Sheet :=
  cmd.changes.foldl
    (fun sh ch =>
      match ch with
      | (r, c, old, _) => ⟨setCell sh.df r c old, setCell sh.text r c (render old)⟩)
    sh

/-- `EditCommand.redo` (lines 43-57): symmetric, with the new values. -/
def applyRedoCmd (cmd : EditCommand) (sh : Sheet) : Sheet :=
  cmd.changes.foldl
    (fun sh ch =>
      match ch with
      | (r, c, _, nw) => ⟨setCell sh.df r c nw, setCell sh.text r c (render nw)⟩)
    sh

/-- `CommandStack` (lines 59-92).  The Lean list head is the Python
list's end, i.e. the top of the stack. -/
structure CommandStack where
  undoStack : List EditCommand
  redoStack : List EditCommand
deriving DecidableEq

/-- `CommandStack.push` (lines 64-66): append to the undo stack and
clear the redo stack. -/
def CommandStack.push (st : CommandStack) (c : EditCommand) : CommandStack :=
  ⟨c :: st.undoStack, []⟩

/-- `CommandStack.can_undo` (lines 68-69). -/
def CommandStack.canUndo (st : CommandStack) : Bool :=
  !st.undoStack.isEmpty

/-- `CommandStack.can_redo` (lines 71-72). -/
def CommandStack.canRedo (st : CommandStack) : Bool :=
  !st.redoStack.isEmpty

/-- The modelled slice of the `ParquetViewer` instance state: the frame
and table texts, the per-column dtypes (`self.column_types`, looked up
by the column's header text — `none` models a missed lookup, e.g. when
a filter indicator has been appended to the header name), the command
stack, the dirty flag and modified-cell set, edit mode, the filter
dictionary and resulting hidden-row flags, the per-column sort-state
dictionary plus the last sort actually applied to the table, the current
file, and the totals-row contents (as `Option Dec`; `none` is a blank
cell, and index 0 holds the "Total" label, modelled as `none` too). -/
structure Session where
  sheet : Sheet
  columnTypes : List (Option Dtype)
  cols : Nat
  stack : CommandStack
  modified : Bool
  modifiedCells : List (Nat × Nat)
  editMode : Bool
  filters : List (Nat × String)
  hidden : List Bool
  sortStates : List (Nat × Bool)
  appliedSort : Option (Nat × Bool)
  currentFile : Option String
  totalsRow : List (Option Dec)
deriving DecidableEq

/-- Add a cell coordinate to the modified-cell set
(`self.modified_cells.add((row, col))`; Python sets are unordered — we
keep first-insertion order, which no claim observes). -/
def addCell (p : Nat × Nat) (l : List (Nat × Nat)) : List (Nat × Nat) :=
  if l.contains p then l else l ++ [p]

/-- Numeric values of one column over all table rows: the loop at
lines 1137-1145, `float(item.text().replace(',', ''))` per existing
item, skipping unparseable cells.  Note it runs over every row of the
widget — hidden (filtered-out) rows included. -/
def numericCellVals (texts : List (List String)) (col : Nat) : List Dec :=
  texts.filterMap (fun row => (row.get? col).bind (fun t => pyFloat (stripCommas t)))

/-- Total of one column: blank (`none`) when no cell parses. -/
def columnTotal (texts : List (List String)) (col : Nat) : Option Dec :=
  let vs := numericCellVals texts col
  if vs.isEmpty then none else some (decSum vs)

/-- The totals row `update_column_totals` writes (lines 1122-1159):
column 0 receives the "Total" label (no sum, modelled `none`), every
other column its `columnTotal`. -/
def computeTotals (texts : List (List String)) (ncols : Nat) : List (Option Dec) :=
  (List.range ncols).map (fun c => if c = 0 then none else columnTotal texts c)

/-- `update_column_totals` (lines 1115-1166): early-out when the table
has no rows (the stale totals remain), otherwise recompute the totals
row from the displayed texts of all rows. -/
def updateColumnTotals (s : Session) : Session :=
  if s.sheet.text.length = 0 then s
  else { s with totalsRow := computeTotals s.sheet.text s.cols }

/-- Case-insensitive substring test (`filter_text.lower() in
item.text().lower()`), on character lists. -/
def containsSub : List Char → List Char → Bool
  | _, [] => true
  | [], _ :: _ => false
  | h :: t, n :: ns => (containsFrom (h :: t) (n :: ns)) || containsSub t (n :: ns)
where
  /-- Does the needle occur at the very front of the haystack? -/
  containsFrom : List Char → List Char → Bool
    | _, [] => true
    | [], _ :: _ => false
    | h :: t, n :: ns => h == n && containsFrom t ns

/-- A single row passes the filter set iff, for every `(col, pattern)`
entry, the item is missing or its text contains the pattern
case-insensitively (`apply_filters` lines 981-987: a row is hidden only
when an existing item fails the containment test). -/
def rowPasses (filters : List (Nat × String)) (rowTexts : List String) : Bool :=
  filters.all (fun f =>
    match rowTexts.get? f.1 with
    | none => true
    | some t => containsSub (pyLower t).data (pyLower f.2).data)

/-- `apply_filters` (lines 979-991): recompute every row's hidden flag,
then update the column totals. -/
def applyFilters (s : Session) : Session :=
  updateColumnTotals
    { s with hidden := s.sheet.text.map (fun row => !rowPasses s.filters row) }

/-- Dictionary write `self.column_sort_states[column] = v` (Python
dicts keep insertion order and re-assignment updates in place). -/
def dictSet : List (Nat × Bool) → Nat → Bool → List (Nat × Bool)
  | [], k, v => [(k, v)]
  | p :: t, k, v => if p.1 = k then (k, v) :: t else p :: dictSet t k v

/-- `toggle_column_sort` (lines 877-888): a column already present in
`column_sort_states` flips between ascending and descending; a fresh
column starts ascending.  `self.table.sortItems(column, order)` is the
view-side application, recorded as `appliedSort` (the physical row
permutation is presentation-layer and not modelled). -/
def toggleColumnSort (col : Nat) (s : Session) : Session :=
  match s.sortStates.lookup col with
  | some asc =>
    { s with sortStates := dictSet s.sortStates col (!asc),
             appliedSort := some (col, !asc) }
  | none =>
    { s with sortStates := dictSet s.sortStates col true,
             appliedSort := some (col, true) }

/-- `on_cell_changed` (lines 449-564), modelling one user cell edit:
the widget has already replaced the item text with `raw` when the
handler fires, so the model first records `raw` as the displayed text.
Then, per the source: strip the text; return early when the stripped
text equals `str(old_value).strip()`; with a registered dtype, coerce —
on `ValueError`/`TypeError` restore the display from the old value and
change nothing else; skip when both values are null or when the
converted value `==` the old one; otherwise push a one-triple command,
write the frame, reformat the display, set the dirty flag, record the
cell, and recompute totals.  Without a registered dtype the raw-vs-str
check repeats and a committed edit stores the stripped string, leaving
the typed text displayed unchanged.  (The guard flags `updating_totals`
/ `applying_delete` / `populating_new_column` are transient and false on
every user-originated call; re-entrant calls triggered by the handler's
own `setText` hit the equality guards and change nothing, so they are
not replayed here — `cutCells` below replays the one re-entrant call
whose effect can be observable.) -/
def cellEdited (pdDT : String → Option String) (r c : Nat) (raw : String)
    (s : Session) : Session :=
  if s.editMode = false then s
  else
    let s1 : Session :=
      { s with sheet := { s.sheet with text := setCell s.sheet.text r c raw } }
    let newValue := pyStrip raw
    let old := getCell s1.sheet.df r c .nullV
    if pyStrip (pyStr old) = newValue then s1
    else
      match s1.columnTypes.getD c none with
      | some dt =>
        match coerce pdDT newValue dt with
        | none =>
          { s1 with sheet :=
              { s1.sheet with text := setCell s1.sheet.text r c (render old) } }
        | some conv =>
          if isNa conv && isNa old then s1
          else if pyEq conv old then s1
          else
            updateColumnTotals
              { s1 with
                stack := s1.stack.push ⟨[(r, c, old, conv)]⟩,
                sheet := ⟨setCell s1.sheet.df r c conv,
                          setCell s1.sheet.text r c (render conv)⟩,
                modified := true,
                modifiedCells := addCell (r, c) s1.modifiedCells }
      | none =>
        if newValue = pyStrip (pyStr old) then s1
        else
          updateColumnTotals
            { s1 with
              stack := s1.stack.push ⟨[(r, c, old, .strV newValue)]⟩,
              sheet := { s1.sheet with
                df := setCell s1.sheet.df r c (.strV newValue) },
              modified := true,
              modifiedCells := addCell (r, c) s1.modifiedCells }

/-- The cells named by a list of commands, used by `undo_edit` to
rebuild `self.modified_cells` from the remaining undo stack
(lines 1665-1671). -/
def cellsOfCmds (cmds : List EditCommand) : List (Nat × Nat) :=
  cmds.foldr
    (fun cmd acc =>
      cmd.changes.foldl (fun acc ch => addCell (ch.1, ch.2.1) acc) acc)
    []

/-- `undo_edit` (lines 1657-1676): only in edit mode; pop the top
command, apply its reverse to frame and table, move it to the redo
stack, recompute the dirty flag and modified-cell set from what remains,
and refresh the totals. -/
def undoEdit (s : Session) : Session :=
  if s.editMode = false then s
  else
    match s.stack.undoStack with
    | [] => s
    | cmd :: rest =>
      updateColumnTotals
        { s with
          sheet := applyUndoCmd cmd s.sheet,
          stack := ⟨rest, cmd :: s.stack.redoStack⟩,
          modified := !rest.isEmpty,
          modifiedCells := cellsOfCmds rest }

/-- `redo_edit` (lines 1678-1695): only in edit mode; pop the top redo
command, reapply it, move it back to the undo stack, mark dirty, add its
cells to the modified set, and refresh totals. -/
def redoEdit (s : Session) : Session :=
  if s.editMode = false then s
  else
    match s.stack.redoStack with
    | [] => s
    | cmd :: rest =>
      updateColumnTotals
        { s with
          sheet := applyRedoCmd cmd s.sheet,
          stack := ⟨cmd :: s.stack.undoStack, rest⟩,
          modified := true,
          modifiedCells :=
            cmd.changes.foldl (fun acc ch => addCell (ch.1, ch.2.1) acc)
              s.modifiedCells }

/-- Iterate `undo_edit`. -/
def undoTimes : Nat → Session → Session
  | 0, s => s
  | n + 1, s => undoTimes n (undoEdit s)

/-- Iterate `redo_edit`. -/
def redoTimes : Nat → Session → Session
  | 0, s => s
  | n + 1, s => redoTimes n (redoEdit s)

/-- "Invoke `undo()` repeatedly until `can_undo()` is false": since each
successful undo pops exactly one command, that is one call per stacked
command. -/
def undoAll (s : Session) : Session :=
  undoTimes s.stack.undoStack.length s

/-- "Invoke `redo()` repeatedly until `can_redo()` is false". -/
def redoAll (s : Session) : Session :=
  redoTimes s.stack.redoStack.length s

/-- `save_file` (lines 603-627).  `writeOk` is the outcome of the
external `to_parquet` call.  On success the dirty flag, modified-cell
set and command stack are cleared and `True` is returned; any exception
is reported and `False` returned with the in-memory state untouched.
With no current file the source defers to the Save-As dialog
(`save_file_as`); that interactive path is modelled as a failed save,
and the save-failure claim is stated for sessions with a current file. -/
def saveFile (writeOk : Bool) (s : Session) : Session × Bool :=
  match s.currentFile with
  | none => (s, false)
  | some _ =>
    if writeOk then
      ({ s with modified := false, modifiedCells := [], stack := ⟨[], []⟩ }, true)
    else (s, false)

/-- What the external `pd.read_parquet` hands back on success: the frame
values and the per-column dtypes. -/
structure LoadData where
  rows : List (List Value)
  types : List Dtype
deriving DecidableEq

/-- `load_parquet_file` (lines 1041-1113).  `loaded` is the outcome of
the external read (`none` = exception on the first statement, nothing
mutated).  On success: rebuild the table from the frame (display via the
shared formatting block), store the column dtypes, set the current file,
reset the dirty flag / modified cells / command stack, clear the filter
dictionary (the rebuilt rows are all visible), and recompute totals.
`column_sort_states` and the applied sort indicator are NOT touched, and
edit mode is left as it was. -/
def loadParquetFile (loaded : Option LoadData) (fileName : String)
    (s : Session) : Session × Bool :=
  match loaded with
  | none => (s, false)
  | some d =>
    (updateColumnTotals
      { s with
        sheet := ⟨d.rows, d.rows.map (fun row => row.map render)⟩,
        columnTypes := d.types.map some,
        cols := d.types.length,
        currentFile := some fileName,
        modified := false,
        modifiedCells := [],
        stack := ⟨[], []⟩,
        filters := [],
        hidden := List.replicate d.rows.length false }, true)

/-- `open_file` (lines 1168-1189): first `check_unsaved_changes` (a
dialog round; its outcome is the `checkOk` parameter — `False` means the
user cancelled or a requested save failed, and nothing further happens);
then the file dialog (`chosen`); then `load_parquet_file`. -/
def openFile (checkOk : Bool) (chosen : Option String)
    (loaded : Option LoadData) (s : Session) : Session :=
  if checkOk = false then s
  else
    match chosen with
    | none => s
    | some f => (loadParquetFile loaded f s).1

/-- `cut_cells` (lines 1740-1766): `copy_cells(cut=True)` only writes
the system clipboard (not modelled); then, in edit mode, for each
selected cell: push a fresh one-triple command, null the frame cell, and
`item.setText('')` — which re-enters `on_cell_changed` whenever the
displayed text actually changes (modelled by the `cellEdited` call); the
cell is then marked modified.  No totals refresh happens here. -/
def cutStep (pdDT : String → Option String) (st : Session)
    (p : Nat × Nat) : Session :=
  let old := getCell st.sheet.df p.1 p.2 .nullV
  let st1 := { st with stack := st.stack.push ⟨[(p.1, p.2, old, .nullV)]⟩ }
  let st2 := { st1 with sheet :=
    { st1.sheet with df := setCell st1.sheet.df p.1 p.2 .nullV } }
  let st3 :=
    if getCell st2.sheet.text p.1 p.2 "" = "" then st2
    else cellEdited pdDT p.1 p.2 "" st2
  { st3 with modified := true,
             modifiedCells := addCell (p.1, p.2) st3.modifiedCells }

def cutCells (pdDT : String → Option String) (sel : List (Nat × Nat))
    (s : Session) : Session :=
  if s.editMode = false then s
  else sel.foldl (cutStep pdDT) s

/-- `delete_selected_cell_contents` (lines 1452-1490): in edit mode,
collect one triple per selected cell whose frame value is non-null; if
any, push them as ONE command, null the cells and blank their texts
(`applying_delete` suppresses the change handler), mark the cells
modified, set dirty, and refresh totals. -/
def deleteChanges (s : Session) (sel : List (Nat × Nat)) :
    List (Nat × Nat × Value × Value) :=
  sel.filterMap (fun p =>
    let old := getCell s.sheet.df p.1 p.2 .nullV
    if isNa old then none else some (p.1, p.2, old, Value.nullV))

def deleteSelected (sel : List (Nat × Nat)) (s : Session) : Session :=
  if s.editMode = false then s
  else
    let changes := deleteChanges s sel
    if changes.isEmpty then s
    else
      updateColumnTotals
        { s with
          stack := s.stack.push ⟨changes⟩,
          sheet := changes.foldl
            (fun sh ch => ⟨setCell sh.df ch.1 ch.2.1 .nullV,
                           setCell sh.text ch.1 ch.2.1 ""⟩)
            s.sheet,
          modified := true,
          modifiedCells := changes.foldl
            (fun acc ch => addCell (ch.1, ch.2.1) acc) s.modifiedCells }

/-- A selection rectangle `(topRow, leftColumn, bottomRow, rightColumn)`
as produced by `selectedRanges()` (or synthesised from the current cell
when nothing is selected). -/
structure SelRange where
  top : Nat
  left : Nat
  bottom : Nat
  right : Nat
deriving DecidableEq

/-- Python `range(a, b+1)` as a list. -/
def upto (a b : Nat) : List Nat := List.range' a (b + 1 - a)

/-- The target cells of the broadcast branch of `paste_cells`
(lines 1843-1851): one copy of the single clipboard value for every cell
of every selected rectangle. -/
def broadcastCells (ranges : List SelRange) (v : String) :
    List (Nat × Nat × String) :=
  ranges.flatMap (fun sr =>
    (upto sr.top sr.bottom).flatMap (fun r =>
      (upto sr.left sr.right).map (fun c => (r, c, v))))

/-- The target cells of the normal branch (lines 1910-1918): the
clipboard matrix anchored at each selection's top-left corner. -/
def anchoredCells (ranges : List SelRange) (data : List (List String)) :
    List (Nat × Nat × String) :=
  ranges.flatMap (fun sr =>
    data.enum.flatMap (fun rowPair =>
      rowPair.2.enum.map (fun colPair =>
        (sr.top + rowPair.1, sr.left + colPair.1, colPair.2))))

/-- Apply a change list to frame and table texts: each changed cell gets
its new value and the shared display formatting of it (the loop at
lines 1888-1901 / 1958-1971). -/
def applySheetChanges (chs : List (Nat × Nat × Value × Value)) (sh : Sheet) : Sheet :=
  chs.foldl
    (fun sh ch => ⟨setCell sh.df ch.1 ch.2.1 ch.2.2.2,
                   setCell sh.text ch.1 ch.2.1 (render ch.2.2.2)⟩)
    sh

/-- The change list `paste_cells` accumulates (lines 1847-1881 /
1911-1951): a target cell is silently skipped when
`row >= self.table.rowCount() - 1 or col >= self.table.columnCount()`
(the comment says "Skip totals row" — so the last table row is never
pasted into), and when the per-dtype conversion raises.  Otherwise the
triple records the current frame value and the converted one. -/
def pasteChanges (pdDT : String → Option String) (s : Session)
    (cells : List (Nat × Nat × String)) : List (Nat × Nat × Value × Value) :=
  cells.filterMap (fun t =>
    if s.sheet.text.length - 1 ≤ t.1 ∨ s.cols ≤ t.2.1 then none
    else
      let conv : Option Value :=
        match s.columnTypes.getD t.2.1 none with
        | some dt => coerce pdDT t.2.2 dt
        | none => some (.strV t.2.2)
      conv.map (fun v => (t.1, t.2.1, getCell s.sheet.df t.1 t.2.1 .nullV, v)))

/-- `paste_cells` (lines 1814-1977): in edit mode, pick the branch
(single-value broadcast vs anchored matrix), build the change list; if
non-empty, push it as ONE command, then write every change into the
frame and reformat its item text (the re-entrant change-handler calls
these `setText`s trigger all hit the no-change guards — the value just
written always satisfies the str/`==` tests — so they are not replayed),
mark the cells modified, set dirty, refresh totals.  `data` is the
clipboard matrix (structured clipboard, or the parsed system-clipboard
fallback). -/
def pasteCells (pdDT : String → Option String) (ranges : List SelRange)
    (data : List (List String)) (s : Session) : Session :=
  if s.editMode = false then s
  else
    let cells :=
      if data.length = 1 && (data.getD 0 []).length = 1 then
        broadcastCells ranges ((data.getD 0 []).getD 0 "")
      else anchoredCells ranges data
    let changes := pasteChanges pdDT s cells
    if changes.isEmpty then s
    else
      updateColumnTotals
        { s with
          stack := s.stack.push ⟨changes⟩,
          sheet := applySheetChanges changes s.sheet,
          modified := true,
          modifiedCells := changes.foldl
            (fun acc ch => addCell (ch.1, ch.2.1) acc) s.modifiedCells }

theorem getD_set_self {α : Type _} :
    ∀ (l : List α) (i : Nat) (a d : α), i < l.length → (l.set i a).getD i d = a
  | _ :: _, 0, _, _, _ => rfl
  | _ :: t, i + 1, a, d, h =>
    getD_set_self t i a d (Nat.lt_of_succ_lt_succ h)

theorem getD_set_ne {α : Type _} :
    ∀ (l : List α) (i j : Nat) (a : α) (d : α), i ≠ j →
      (l.set i a).getD j d = l.getD j d
  | [], _, _, _, _, _ => rfl
  | _ :: _, 0, 0, _, _, h => absurd rfl h
  | _ :: _, 0, _ + 1, _, _, _ => rfl
  | _ :: _, _ + 1, 0, _, _, _ => rfl
  | _ :: t, i + 1, j + 1, a, d, h =>
    getD_set_ne t i j a d (fun hij => h (by simp [hij]))

theorem set_getD_self {α : Type _} :
    ∀ (l : List α) (i : Nat) (d : α), i < l.length → l.set i (l.getD i d) = l
  | _ :: _, 0, _, _ => rfl
  | x :: t, i + 1, d, h => by
    simpa [List.set, List.getD] using set_getD_self t i d (Nat.lt_of_succ_lt_succ h)

theorem getCell_setCell_self {α : Type _} (xs : List (List α)) (r c : Nat)
    (a d : α) (h1 : r < xs.length) (h2 : c < (xs.getD r []).length) :
    getCell (setCell xs r c a) r c d = a := by
  unfold getCell setCell
  rw [getD_set_self _ _ _ _ h1, getD_set_self _ _ _ _ h2]

theorem getCell_setCell_ne {α : Type _} (xs : List (List α)) (r c r' c' : Nat)
    (a d : α) (h : ¬(r' = r ∧ c' = c)) :
    getCell (setCell xs r c a) r' c' d = getCell xs r' c' d := by
  unfold getCell setCell
  by_cases hr : r = r'
  · subst hr
    have hc : c ≠ c' := fun hc => h ⟨rfl, hc.symm⟩
    by_cases hlt : r < xs.length
    · rw [getD_set_self _ _ _ _ hlt, getD_set_ne _ _ _ _ _ hc]
    · rw [List.set_eq_of_length_le (Nat.le_of_not_lt hlt)]
  · rw [getD_set_ne _ _ _ _ _ hr]

theorem setCell_setCell {α : Type _} (xs : List (List α)) (r c : Nat) (a b : α) :
    setCell (setCell xs r c a) r c b = setCell xs r c b := by
  unfold setCell
  by_cases hlt : r < xs.length
  · rw [getD_set_self _ _ _ _ hlt, List.set_set, List.set_set]
  · simp [List.set_eq_of_length_le (Nat.le_of_not_lt hlt)]

theorem setCell_getCell_self {α : Type _} (xs : List (List α)) (r c : Nat)
    (d : α) (h1 : r < xs.length) (h2 : c < (xs.getD r []).length) :
    setCell xs r c (getCell xs r c d) = xs := by
  unfold getCell setCell
  rw [set_getD_self _ _ _ h2, set_getD_self _ _ _ h1]

theorem length_setCell {α : Type _} (xs : List (List α)) (r c : Nat) (a : α) :
    (setCell xs r c a).length = xs.length := by
  unfold setCell; exact List.length_set ..

theorem rowlen_setCell {α : Type _} (xs : List (List α)) (r c i : Nat) (a : α) :
    ((setCell xs r c a).getD i []).length = (xs.getD i []).length := by
  unfold setCell
  by_cases hr : r = i
  · subst hr
    by_cases hlt : r < xs.length
    · rw [getD_set_self _ _ _ _ hlt, List.length_set]
    · rw [List.set_eq_of_length_le (Nat.le_of_not_lt hlt)]
  · rw [getD_set_ne _ _ _ _ _ hr]

theorem updateColumnTotals_sheet (s : Session) :
    (updateColumnTotals s).sheet = s.sheet := by
  unfold updateColumnTotals; split <;> rfl

theorem updateColumnTotals_stack (s : Session) :
    (updateColumnTotals s).stack = s.stack := by
  unfold updateColumnTotals; split <;> rfl

theorem updateColumnTotals_editMode (s : Session) :
    (updateColumnTotals s).editMode = s.editMode := by
  unfold updateColumnTotals; split <;> rfl

theorem updateColumnTotals_columnTypes (s : Session) :
    (updateColumnTotals s).columnTypes = s.columnTypes := by
  unfold updateColumnTotals; split <;> rfl

/-- A demonstration session: one row, an `int64` column holding `1000`
(displayed `1,000`) and a text column holding `"a"`, edit mode on,
empty history. -/
def demoSession : Session where
  sheet := ⟨[[.intV 1000, .strV "a"]], [["1,000", "a"]]⟩
  columnTypes := [some .int64, some .objectT]
  cols := 2
  stack := ⟨[], []⟩
  modified := false
  modifiedCells := []
  editMode := true
  filters := []
  hidden := [false]
  sortStates := []
  appliedSort := none
  currentFile := some "demo.parquet"
  totalsRow := []

/-- Membership in a three-element string list, as a disjunction. -/
theorem contains3_iff (x a b c : String) :
    (([a, b, c] : List String).contains x = true) ↔ (x = a ∨ x = b ∨ x = c) := by
  rw [List.elem_iff]
  simp

/-- C4 (confirmed): coercing user text against a Boolean column maps the
case-insensitive strings "true", "1", "yes" to `true` and every other
non-empty string — including "false" — to `false`, never raising; the
empty string coerces to the null value. -/
theorem c4_boolean_coercion (pdDT : String → Option String) :
    (∀ s : String, s ≠ "" →
      (coerce pdDT s .boolDt = some (.boolV true) ↔
        (pyLower s = "true" ∨ pyLower s = "1" ∨ pyLower s = "yes"))) ∧
    (∀ s : String, s ≠ "" → pyLower s ≠ "true" → pyLower s ≠ "1" →
      pyLower s ≠ "yes" → coerce pdDT s .boolDt = some (.boolV false)) ∧
    coerce pdDT "" .boolDt = some .nullV ∧
    coerce pdDT "false" .boolDt = some (.boolV false) ∧
    coerce pdDT "TRUE" .boolDt = some (.boolV true) ∧
    coerce pdDT "1" .boolDt = some (.boolV true) ∧
    coerce pdDT "Yes" .boolDt = some (.boolV true) := by
  have hgen : ∀ s : String, s ≠ "" →
      coerce pdDT s .boolDt =
        some (.boolV ((["true", "1", "yes"] : List String).contains (pyLower s))) := by
    intro s hs
    simp [coerce, hs]
  refine ⟨?_, ?_, by simp [coerce], ?_, ?_, ?_, ?_⟩
  · intro s hs
    rw [hgen s hs]
    simp only [Option.some.injEq, Value.boolV.injEq]
    exact contains3_iff (pyLower s) "true" "1" "yes"
  · intro s hs h1 h2 h3
    rw [hgen s hs]
    have : (["true", "1", "yes"] : List String).contains (pyLower s) = false := by
      cases hc : (["true", "1", "yes"] : List String).contains (pyLower s)
      · rfl
      · rcases (contains3_iff (pyLower s) "true" "1" "yes").mp hc with h | h | h
        · exact absurd h h1
        · exact absurd h h2
        · exact absurd h h3
    rw [this]
  · rw [hgen "false" (by decide)]; rfl
  · rw [hgen "TRUE" (by decide)]; rfl
  · rw [hgen "1" (by decide)]; rfl
  · rw [hgen "Yes" (by decide)]; rfl

/-- C4 witness: the generic clauses applied at `"no"`. -/
theorem c4_witness :
    coerce (fun _ => none) "no" .boolDt = some (.boolV false) :=
  (c4_boolean_coercion (fun _ => none)).2.1 "no" (by decide) (by decide)
    (by decide) (by decide)

/-- C8 (confirmed): with a current file, a failing save returns `False`
and leaves the in-memory session untouched (the dirty flag, the
modified-cell set and the command stack included); a successful save
returns `True` and clears exactly the dirty flag, the modified-cell set
and the command stack. -/
theorem c8_save_failure (s : Session) (f : String)
    (hf : s.currentFile = some f) :
    saveFile false s = (s, false) ∧
    (saveFile false s).1.modified = s.modified ∧
    (saveFile false s).1.modifiedCells = s.modifiedCells ∧
    (saveFile false s).1.stack = s.stack ∧
    (saveFile true s).1 =
      { s with modified := false, modifiedCells := [], stack := ⟨[], []⟩ } ∧
    (saveFile true s).2 = true := by
  unfold saveFile
  rw [hf]
  simp

/-- The demonstration session with an unsaved edit recorded. -/
def demoDirty : Session :=
  { demoSession with
    modified := true,
    modifiedCells := [(0, 0)],
    stack := ⟨[⟨[(0, 0, Value.intV 1000, Value.intV 7)]⟩], []⟩ }

/-- C8 witness: a failing save on the dirtied demonstration session. -/
theorem c8_witness : saveFile false demoDirty = (demoDirty, false) :=
  (c8_save_failure demoDirty "demo.parquet" rfl).1

/-- Any single invocation of the change handler either leaves the
command stack untouched or pushes exactly one new command. -/
theorem cellEdited_stack (pdDT : String → Option String) (r c : Nat)
    (raw : String) (s : Session) :
    (cellEdited pdDT r c raw s).stack = s.stack ∨
    ∃ cmd, (cellEdited pdDT r c raw s).stack = s.stack.push cmd := by
  unfold cellEdited
  split
  · exact Or.inl rfl
  · dsimp only
    split
    · exact Or.inl rfl
    · split
      · split
        · exact Or.inl rfl
        · split
          · exact Or.inl rfl
          · split
            · exact Or.inl rfl
            · exact Or.inr ⟨_, by rw [updateColumnTotals_stack]⟩
      · split
        · exact Or.inl rfl
        · exact Or.inr ⟨_, by rw [updateColumnTotals_stack]⟩

/-- The command stack with commands abstracted to identity tags: each
`push` stamps a fresh tag, and `undo`/`redo` move the top tag exactly as
`CommandStack.undo`/`redo` move the popped command (lines 74-88).  Used
to state that one command object never sits in both sequences. -/
structure TrackedStack where
  undoIds : List Nat
  redoIds : List Nat
  next : Nat
deriving DecidableEq

/-- One user-visible stack operation. -/
inductive StackOp where
  | pushOp : StackOp
  | undoOp : StackOp
  | redoOp : StackOp
deriving DecidableEq

/-- The tag-level transition of one stack operation. -/
def trackedStep (t : TrackedStack) : StackOp → TrackedStack
  | .pushOp => ⟨t.next :: t.undoIds, [], t.next + 1⟩
  | .undoOp =>
    match t.undoIds with
    | [] => t
    | i :: rest => ⟨rest, i :: t.redoIds, t.next⟩
  | .redoOp =>
    match t.redoIds with
    | [] => t
    | i :: rest => ⟨i :: t.undoIds, rest, t.next⟩

/-- Run a sequence of stack operations from the empty history. -/
def trackedRun (ops : List StackOp) : TrackedStack :=
  ops.foldl trackedStep ⟨[], [], 0⟩

/-- The tracked-stack invariant: no tag occurs twice across the two
sequences, and every tag is older than the next fresh one. -/
def TrackedInv (t : TrackedStack) : Prop :=
  (t.undoIds ++ t.redoIds).Nodup ∧ ∀ i ∈ t.undoIds ++ t.redoIds, i < t.next

theorem trackedStep_inv (t : TrackedStack) (op : StackOp)
    (h : TrackedInv t) : TrackedInv (trackedStep t op) := by
  obtain ⟨hnd, hlt⟩ := h
  cases op with
  | pushOp =>
    refine ⟨?_, ?_⟩
    · simp only [trackedStep, List.append_nil]
      exact List.Nodup.cons
        (fun hmem => Nat.lt_irrefl t.next
          (hlt t.next (List.mem_append_left _ hmem)))
        ((List.nodup_append.mp hnd).1)
    · intro i hi
      simp only [trackedStep, List.append_nil, List.mem_cons] at hi
      rcases hi with rfl | hi
      · exact Nat.lt_succ_self _
      · exact Nat.lt_succ_of_lt (hlt i (List.mem_append_left _ hi))
  | undoOp =>
    cases hu : t.undoIds with
    | nil => simpa [trackedStep, hu] using ⟨hnd, hlt⟩
    | cons i rest =>
      have hperm : (rest ++ i :: t.redoIds).Perm (i :: (rest ++ t.redoIds)) :=
        List.perm_middle
      have hnd' : (i :: (rest ++ t.redoIds)).Nodup := by
        rw [hu] at hnd
        simpa using hnd
      refine ⟨?_, ?_⟩
      · simpa [trackedStep, hu] using hperm.nodup_iff.mpr hnd'
      · intro j hj
        simp only [trackedStep, hu] at hj
        have : j ∈ t.undoIds ++ t.redoIds := by
          rw [hu]
          rcases List.mem_append.mp hj with h1 | h2
          · exact List.mem_append_left _ (List.mem_cons_of_mem _ h1)
          · rcases List.mem_cons.mp h2 with rfl | h3
            · exact List.mem_append_left _ (List.mem_cons_self _ _)
            · exact List.mem_append_right _ h3
        simpa [trackedStep, hu] using hlt j this
  | redoOp =>
    cases hr : t.redoIds with
    | nil => simpa [trackedStep, hr] using ⟨hnd, hlt⟩
    | cons i rest =>
      have hperm : (t.undoIds ++ i :: rest).Perm (i :: (t.undoIds ++ rest)) :=
        List.perm_middle
      have hnd' : (i :: (t.undoIds ++ rest)).Nodup := by
        rw [hr] at hnd
        exact hperm.nodup_iff.mp (by simpa using hnd)
      refine ⟨?_, ?_⟩
      · simpa [trackedStep, hr] using hnd'
      · intro j hj
        simp only [trackedStep, hr] at hj
        have : j ∈ t.undoIds ++ t.redoIds := by
          rw [hr]
          rcases List.mem_append.mp hj with h1 | h2
          · rcases List.mem_cons.mp h1 with rfl | h3
            · exact List.mem_append_right _ (List.mem_cons_self _ _)
            · exact List.mem_append_left _ h3
          · exact List.mem_append_right _ (List.mem_cons_of_mem _ h2)
        simpa [trackedStep, hr] using hlt j this

theorem trackedRun_inv (ops : List StackOp) : TrackedInv (trackedRun ops) := by
  suffices h : ∀ (l : List StackOp) (t : TrackedStack), TrackedInv t →
      TrackedInv (l.foldl trackedStep t) by
    exact h ops ⟨[], [], 0⟩ ⟨by simp, by simp⟩
  intro l
  induction l with
  | nil => exact fun t ht => ht
  | cons op rest ih => exact fun t ht => ih _ (trackedStep_inv t op ht)

/-- C2 (confirmed): `push` empties the redo sequence; a cell edit that
actually commits a command (the undo stack grew) leaves `can_redo()`
false — in particular right after an `undo()`; and across any sequence
of push/undo/redo operations no command (identified by its identity
tag) ever occurs in both sequences, nor twice anywhere. -/
theorem c2_push_clears_redo :
    (∀ (st : CommandStack) (cmd : EditCommand),
      (st.push cmd).redoStack = [] ∧ (st.push cmd).canRedo = false) ∧
    (∀ (pdDT : String → Option String) (r c : Nat) (raw : String) (s : Session),
      (cellEdited pdDT r c raw s).stack.undoStack.length ≠
          s.stack.undoStack.length →
      (cellEdited pdDT r c raw s).stack.canRedo = false) ∧
    (∀ ops : List StackOp,
      ((trackedRun ops).undoIds ++ (trackedRun ops).redoIds).Nodup) := by
  refine ⟨fun st cmd => ⟨rfl, rfl⟩, ?_, fun ops => (trackedRun_inv ops).1⟩
  intro pdDT r c raw s hne
  rcases cellEdited_stack pdDT r c raw s with h | ⟨cmd, h⟩
  · rw [h] at hne
    exact absurd rfl hne
  · rw [h]
    rfl

/-- C2 witness: an edit session with one undone command (so the redo
stack is non-empty); committing the edit `2` empties it. -/
theorem c2_witness :
    (cellEdited (fun _ => none) 0 0 "2"
      { demoSession with
        stack := ⟨[], [⟨[(0, 0, .intV 1000, .intV 5)]⟩]⟩ }).stack.canRedo
      = false :=
  c2_push_clears_redo.2.1 (fun _ => none) 0 0 "2"
    { demoSession with stack := ⟨[], [⟨[(0, 0, .intV 1000, .intV 5)]⟩]⟩ }
    (by decide)

theorem lookup_dictSet_self :
    ∀ (l : List (Nat × Bool)) (k : Nat) (v : Bool),
      (dictSet l k v).lookup k = some v
  | [], k, v => by simp [dictSet, List.lookup]
  | (pk, pv) :: t, k, v => by
    by_cases h : pk = k
    · subst h
      simp [dictSet, List.lookup]
    · simp only [dictSet]
      rw [if_neg h]
      simp only [List.lookup]
      rw [show (k == pk) = false from beq_eq_false_iff_ne.mpr (fun he => h he.symm)]
      exact lookup_dictSet_self t k v

theorem lookup_dictSet_ne :
    ∀ (l : List (Nat × Bool)) (k k' : Nat) (v : Bool), k' ≠ k →
      (dictSet l k v).lookup k' = l.lookup k'
  | [], k, k', v, h => by
    simp only [dictSet, List.lookup]
    rw [show (k' == k) = false from beq_eq_false_iff_ne.mpr h]
  | (pk, pv) :: t, k, k', v, h => by
    by_cases hp : pk = k
    · subst hp
      simp only [dictSet, if_pos rfl, List.lookup]
      rw [show (k' == pk) = false from beq_eq_false_iff_ne.mpr h]
    · simp only [dictSet]
      rw [if_neg hp]
      simp only [List.lookup]
      cases hbe : (k' == pk) with
      | true => rfl
      | false => exact lookup_dictSet_ne t k k' v h

/-- C6 counterexample: from a fresh session, three sort invocations on
column 0 land back on ascending — the state dictionary still holds an
entry, so the cycle never reaches "unsorted"; and sorting a different
column keeps the first column's entry instead of discarding it. -/
theorem c6_counterexample :
    (toggleColumnSort 0 (toggleColumnSort 0
        (toggleColumnSort 0 demoSession))).sortStates = [(0, true)] ∧
    (toggleColumnSort 0 (toggleColumnSort 0
        (toggleColumnSort 0 demoSession))).appliedSort = some (0, true) ∧
    (toggleColumnSort 1 (toggleColumnSort 0 demoSession)).sortStates
      = [(0, true), (1, true)] := by
  decide

/-- C6 (amended): repeated sort invocations on one column alternate
ascending and descending only — there is no third, unsorted, state; a
column not sorted before starts at ascending; and entries for other
columns are retained in the sort-state dictionary (only the applied sort
indicator moves to the new column). -/
theorem c6_amended (s : Session) (col : Nat) :
    (s.sortStates.lookup col = none →
      (toggleColumnSort col s).sortStates.lookup col = some true ∧
      (toggleColumnSort col s).appliedSort = some (col, true)) ∧
    (∀ a, s.sortStates.lookup col = some a →
      (toggleColumnSort col s).sortStates.lookup col = some (!a) ∧
      (toggleColumnSort col s).appliedSort = some (col, !a)) ∧
    (∀ c', c' ≠ col →
      (toggleColumnSort col s).sortStates.lookup c' = s.sortStates.lookup c') := by
  refine ⟨?_, ?_, ?_⟩
  · intro h
    simp only [toggleColumnSort, h]
    exact ⟨lookup_dictSet_self _ _ _, by trivial⟩
  · intro a h
    simp only [toggleColumnSort, h]
    exact ⟨lookup_dictSet_self _ _ _, by trivial⟩
  · intro c' hne
    unfold toggleColumnSort
    cases h : s.sortStates.lookup col with
    | none => exact lookup_dictSet_ne _ _ _ _ hne
    | some a => exact lookup_dictSet_ne _ _ _ _ hne

/-- C6 witness: the fresh-column clause at column 0 of the demonstration
session. -/
theorem c6_witness :
    (toggleColumnSort 0 demoSession).sortStates.lookup 0 = some true :=
  ((c6_amended demoSession 0).1 (by decide)).1

/-- The totals the CLAIM describes (spec §4.6), stated from the spec's
words for comparison with what the code computes: for a column, sum the
numeric-parseable displayed values of exactly the currently visible
(unfiltered) rows; `none` (blank) when no visible value parses. -/
def specVisibleTotal (texts : List (List String)) (hidden : List Bool)
    (col : Nat) : Option Dec :=
  let vs := (List.range texts.length).filterMap (fun r =>
    if hidden.getD r false then none
    else ((texts.getD r []).get? col).bind (fun t => pyFloat (stripCommas t)))
  if vs.isEmpty then none else some (decSum vs)

/-- Two rows, a text column and an `int64` column `[10, 20]`, with an
active filter "a" on the text column that hides the second row. -/
def c5Session : Session where
  sheet := ⟨[[.strV "a", .intV 10], [.strV "b", .intV 20]],
            [["a", "10"], ["b", "20"]]⟩
  columnTypes := [some .objectT, some .int64]
  cols := 2
  stack := ⟨[], []⟩
  modified := false
  modifiedCells := []
  editMode := true
  filters := [(0, "a")]
  hidden := [false, false]
  sortStates := []
  appliedSort := none
  currentFile := none
  totalsRow := []

/-- C5 counterexample: after the filter hides row 1, the recomputed
total of the numeric column is 30 — the sum over ALL rows — while the
claim's visible-rows sum is 10.  (`update_column_totals` iterates
`range(self.table.rowCount())` with no `isRowHidden` check.) -/
theorem c5_counterexample :
    (applyFilters c5Session).hidden = [false, true] ∧
    (applyFilters c5Session).totalsRow.getD 1 none = some ⟨30, 0⟩ ∧
    specVisibleTotal (applyFilters c5Session).sheet.text
        (applyFilters c5Session).hidden 1 = some ⟨10, 0⟩ ∧
    (applyFilters c5Session).totalsRow.getD 1 none ≠
      specVisibleTotal (applyFilters c5Session).sheet.text
        (applyFilters c5Session).hidden 1 := by
  decide

theorem getD_range_map {β : Type _} (f : Nat → β) (n i : Nat) (d : β)
    (h : i < n) : (((List.range n).map f).getD i d) = f i := by
  rw [List.getD_eq_getElem?_getD, List.getElem?_map, List.getElem?_range h]
  rfl

/-- C5 (amended): the recomputed column total for a column of positive
index is the sum of the numeric-parseable displayed values of ALL table
rows — visible and hidden alike — and is blank exactly when no such
value parses; column 0 never receives a total (it carries the "Total"
label); and the totals are entirely independent of the hidden-row
flags, so a filter change does not change them. -/
theorem c5_amended (s : Session) (col : Nat) (h1 : 1 ≤ col)
    (h2 : col < s.cols) (h3 : s.sheet.text ≠ []) :
    (updateColumnTotals s).totalsRow.getD col none
      = columnTotal s.sheet.text col ∧
    (columnTotal s.sheet.text col = none ↔
      numericCellVals s.sheet.text col = []) ∧
    (numericCellVals s.sheet.text col ≠ [] →
      columnTotal s.sheet.text col
        = some (decSum (numericCellVals s.sheet.text col))) ∧
    (updateColumnTotals s).totalsRow.getD 0 none = none ∧
    (∀ h' : List Bool,
      (updateColumnTotals { s with hidden := h' }).totalsRow
        = (updateColumnTotals s).totalsRow) := by
  have hlen : ¬ s.sheet.text.length = 0 := by
    intro h
    exact h3 (List.length_eq_zero.mp h)
  have htot : (updateColumnTotals s).totalsRow = computeTotals s.sheet.text s.cols := by
    unfold updateColumnTotals
    rw [if_neg hlen]
  refine ⟨?_, ?_, ?_, ?_, ?_⟩
  · rw [htot]
    unfold computeTotals
    rw [getD_range_map _ _ _ _ h2]
    rw [if_neg (Nat.pos_iff_ne_zero.mp h1)]
  · unfold columnTotal
    cases hv : numericCellVals s.sheet.text col <;> simp
  · intro hne
    unfold columnTotal
    rw [if_neg (by simpa using hne)]
  · rw [htot]
    unfold computeTotals
    rw [getD_range_map _ _ _ _ (Nat.lt_of_lt_of_le (Nat.lt_of_lt_of_le Nat.zero_lt_one h1) (Nat.le_of_lt h2))]
    rfl
  · intro h'
    unfold updateColumnTotals
    rw [if_neg hlen, if_neg hlen]

/-- C5 witness: the amended totals semantics at the filtered
demonstration table, column 1. -/
theorem c5_witness :
    (updateColumnTotals c5Session).totalsRow.getD 1 none
      = columnTotal c5Session.sheet.text 1 :=
  (c5_amended c5Session 1 (by decide) (by decide) (by decide)).1

/-- A session with an active sort on column 0 and some history, about to
open another file. -/
def c7Session : Session :=
  { demoDirty with
    sortStates := [(0, true)],
    appliedSort := some (0, true),
    filters := [(0, "1")] }

/-- The file the open loads: one `int64` column with a single row. -/
def c7Load : LoadData := ⟨[[.intV 5]], [.int64]⟩

/-- C7 counterexample: a successful load leaves the per-column sort
states exactly as they were — `load_parquet_file` never clears
`column_sort_states` — contradicting the claim that any active sort
state is cleared. -/
theorem c7_counterexample :
    (loadParquetFile (some c7Load) "new.parquet" c7Session).1.sortStates
        = [(0, true)] ∧
    (loadParquetFile (some c7Load) "new.parquet" c7Session).1.sortStates
        ≠ [] ∧
    (loadParquetFile (some c7Load) "new.parquet" c7Session).1.appliedSort
        = some (0, true) := by
  decide

/-- C7 (amended): opening a file performs the unsaved-changes check
first (a negative outcome stops everything), and a successful load fully
replaces the table contents and clears the command stack, the dirty
flag, the modified-cell set and all active filters, then recomputes the
totals — but the per-column sort states (and the applied sort
indicator) are retained, not cleared. -/
theorem c7_amended (d : LoadData) (f : String) (s : Session)
    (hrows : d.rows ≠ []) :
    (∀ chosen loaded, openFile false chosen loaded s = s) ∧
    openFile true (some f) (some d) s = (loadParquetFile (some d) f s).1 ∧
    loadParquetFile none f s = (s, false) ∧
    (loadParquetFile (some d) f s).2 = true ∧
    (loadParquetFile (some d) f s).1.sheet.df = d.rows ∧
    (loadParquetFile (some d) f s).1.sheet.text
      = d.rows.map (fun row => row.map render) ∧
    (loadParquetFile (some d) f s).1.columnTypes = d.types.map some ∧
    (loadParquetFile (some d) f s).1.currentFile = some f ∧
    (loadParquetFile (some d) f s).1.stack = ⟨[], []⟩ ∧
    (loadParquetFile (some d) f s).1.modified = false ∧
    (loadParquetFile (some d) f s).1.modifiedCells = [] ∧
    (loadParquetFile (some d) f s).1.filters = [] ∧
    (loadParquetFile (some d) f s).1.hidden
      = List.replicate d.rows.length false ∧
    (loadParquetFile (some d) f s).1.totalsRow
      = computeTotals (d.rows.map (fun row => row.map render)) d.types.length ∧
    (loadParquetFile (some d) f s).1.sortStates = s.sortStates ∧
    (loadParquetFile (some d) f s).1.appliedSort = s.appliedSort ∧
    (loadParquetFile (some d) f s).1.editMode = s.editMode := by
  have hlen : ¬ (d.rows.map (fun row => row.map render)).length = 0 := by
    intro h
    rw [List.length_map] at h
    exact hrows (List.length_eq_zero.mp h)
  refine ⟨fun chosen loaded => rfl, rfl, rfl, rfl, ?_⟩
  unfold loadParquetFile updateColumnTotals
  dsimp only
  rw [if_neg hlen]
  and_intros <;> rfl

/-- C7 witness: the amended open/load behaviour at the concrete session
with an active sort. -/
theorem c7_witness :
    (loadParquetFile (some c7Load) "new.parquet" c7Session).1.stack
        = ⟨[], []⟩ ∧
    (loadParquetFile (some c7Load) "new.parquet" c7Session).1.sortStates
        = c7Session.sortStates :=
  ⟨(c7_amended c7Load "new.parquet" c7Session (by decide)).2.2.2.2.2.2.2.2.1,
   (c7_amended c7Load "new.parquet" c7Session (by decide)).2.2.2.2.2.2.2.2.2.2.2.2.2.2.1⟩

/-- C3 (confirmed): when the typed text of a cell edit fails the
column's type coercion (e.g. "12x" against an `int64` column), the edit
is rejected outright: the handler rewrites the displayed text back to
the pre-edit display (the formatting of the stored value) and the
session — frame, command stack, dirty flag, modified cells, everything —
is exactly what it was.  Hypotheses: the edit is in range, the displayed
text was the formatting of the stored value (true after load and after
every committed edit), and the typed text differs from the stored
value's `str` form after stripping (otherwise the handler's no-change
guard fires before coercion can run; for a well-typed stored value that
stripped `str` form always coerces, so it cannot be the failing text). -/
theorem c3_coercion_rejection :
    (∀ (pdDT : String → Option String) (s : Session) (r c : Nat)
        (raw : String) (dt : Dtype),
      s.editMode = true →
      r < s.sheet.df.length →
      c < (s.sheet.df.getD r []).length →
      s.sheet.text.length = s.sheet.df.length →
      (s.sheet.text.getD r []).length = (s.sheet.df.getD r []).length →
      getCell s.sheet.text r c "" = render (getCell s.sheet.df r c .nullV) →
      pyStrip (pyStr (getCell s.sheet.df r c .nullV)) ≠ pyStrip raw →
      s.columnTypes.getD c none = some dt →
      coerce pdDT (pyStrip raw) dt = none →
      cellEdited pdDT r c raw s = s) ∧
    coerce (fun _ => none) "12x" .int64 = none := by
  refine ⟨?_, by decide⟩
  intro pdDT s r c raw dt hmode hr hc hlen hrow htinv hne hdt hco
  unfold cellEdited
  rw [if_neg (by simp [hmode])]
  dsimp only
  rw [if_neg hne]
  rw [hdt]
  dsimp only
  rw [hco]
  dsimp only
  rw [setCell_setCell, ← htinv,
    setCell_getCell_self _ _ _ _ (by rw [hlen]; exact hr)
      (by rw [hrow]; exact hc)]

/-- C3 witness: typing "12x" into the integer cell of the demonstration
session changes nothing. -/
theorem c3_witness :
    cellEdited (fun _ => none) 0 0 "12x" demoSession = demoSession :=
  c3_coercion_rejection.1 (fun _ => none) demoSession 0 0 "12x" .int64
    rfl (by decide) (by decide) (by decide) (by decide) (by decide)
    (by decide) (by decide) (by decide)

/-- Every change `paste_cells` keeps targets a row strictly before the
last one and a column in range. -/
theorem pasteChanges_bounds (pdDT : String → Option String) (s : Session)
    (cells : List (Nat × Nat × String)) (ch : Nat × Nat × Value × Value)
    (h : ch ∈ pasteChanges pdDT s cells) :
    ch.1 < s.sheet.text.length - 1 ∧ ch.2.1 < s.cols := by
  unfold pasteChanges at h
  obtain ⟨t, _, heq⟩ := List.mem_filterMap.mp h
  by_cases hcond : s.sheet.text.length - 1 ≤ t.1 ∨ s.cols ≤ t.2.1
  · rw [if_pos hcond] at heq
    exact absurd heq (by simp)
  · rw [if_neg hcond] at heq
    push_neg at hcond
    obtain ⟨v, _, hv⟩ := Option.map_eq_some'.mp heq
    rw [← hv]
    exact hcond

/-- Frame rule for change application: a cell no change targets keeps
its frame value and its displayed text. -/
theorem applySheetChanges_frame :
    ∀ (chs : List (Nat × Nat × Value × Value)) (sh : Sheet) (rt ct : Nat),
      (∀ ch ∈ chs, ¬(rt = ch.1 ∧ ct = ch.2.1)) →
      getCell (applySheetChanges chs sh).df rt ct .nullV
          = getCell sh.df rt ct .nullV ∧
      getCell (applySheetChanges chs sh).text rt ct ""
          = getCell sh.text rt ct ""
  | [], sh, rt, ct, _ => ⟨rfl, rfl⟩
  | ch :: rest, sh, rt, ct, h => by
    have hstep := h ch (List.mem_cons_self _ _)
    have ih := applySheetChanges_frame rest
      ⟨setCell sh.df ch.1 ch.2.1 ch.2.2.2,
       setCell sh.text ch.1 ch.2.1 (render ch.2.2.2)⟩ rt ct
      (fun ch' hm => h ch' (List.mem_cons_of_mem _ hm))
    refine ⟨?_, ?_⟩
    · rw [show applySheetChanges (ch :: rest) sh
          = applySheetChanges rest
              ⟨setCell sh.df ch.1 ch.2.1 ch.2.2.2,
               setCell sh.text ch.1 ch.2.1 (render ch.2.2.2)⟩ from rfl]
      rw [ih.1]
      exact getCell_setCell_ne _ _ _ _ _ _ _ hstep
    · rw [show applySheetChanges (ch :: rest) sh
          = applySheetChanges rest
              ⟨setCell sh.df ch.1 ch.2.1 ch.2.2.2,
               setCell sh.text ch.1 ch.2.1 (render ch.2.2.2)⟩ from rfl]
      rw [ih.2]
      exact getCell_setCell_ne _ _ _ _ _ _ _ hstep

/-- C10 (confirmed): paste never writes at or beyond the last table row
(the code's "Skip totals row" guard `row >= rowCount - 1`), nor beyond
the column count: such target cells are silently skipped, and their
DataFrame values and displayed text are untouched — for any selection
ranges and any clipboard data, in either paste branch. -/
theorem c10_paste_skips_last_row (pdDT : String → Option String)
    (ranges : List SelRange) (data : List (List String)) (s : Session)
    (rt ct : Nat) (h : s.sheet.text.length - 1 ≤ rt ∨ s.cols ≤ ct) :
    getCell (pasteCells pdDT ranges data s).sheet.df rt ct .nullV
        = getCell s.sheet.df rt ct .nullV ∧
    getCell (pasteCells pdDT ranges data s).sheet.text rt ct ""
        = getCell s.sheet.text rt ct "" := by
  unfold pasteCells
  split
  · exact ⟨rfl, rfl⟩
  · dsimp only
    split <;> split <;>
      first
      | exact ⟨rfl, rfl⟩
      | (rw [updateColumnTotals_sheet]
         dsimp only
         apply applySheetChanges_frame
         intro ch hm
         have hb := pasteChanges_bounds pdDT s _ ch hm
         rintro ⟨rfl, rfl⟩
         rcases h with h1 | h2
         exacts [Nat.lt_irrefl _ (Nat.lt_of_lt_of_le hb.1 h1),
           Nat.lt_irrefl _ (Nat.lt_of_lt_of_le hb.2 h2)])

/-- C10 witness: pasting "7" over a whole-table selection of the
demonstration session leaves its (single, hence last) row unchanged. -/
theorem c10_witness :
    getCell (pasteCells (fun _ => none) [⟨0, 0, 0, 1⟩] [["7"]]
        demoSession).sheet.df 0 0 .nullV
      = getCell demoSession.sheet.df 0 0 .nullV :=
  (c10_paste_skips_last_row (fun _ => none) [⟨0, 0, 0, 1⟩] [["7"]]
    demoSession 0 0 (by decide)).1

theorem getCell_setCell_same {α : Type _} (xs : List (List α)) (r c : Nat)
    (a : α) : getCell (setCell xs r c a) r c a = a := by
  by_cases hr : r < xs.length
  · by_cases hc : c < (xs.getD r []).length
    · exact getCell_setCell_self xs r c a a hr hc
    · unfold getCell setCell
      rw [getD_set_self _ _ _ _ hr,
        List.set_eq_of_length_le (Nat.le_of_not_lt hc)]
      exact List.getD_eq_default _ _ (Nat.le_of_not_lt hc)
  · unfold getCell setCell
    rw [List.set_eq_of_length_le (Nat.le_of_not_lt hr),
      List.getD_eq_default _ _ (Nat.le_of_not_lt hr)]
    rfl

/-- The re-entrant change-handler call fired by `item.setText('')`
inside the cut loop is a no-op beyond recording the blank text, provided
the column has a registered dtype: the blank coerces to null, the frame
cell was just nulled, and the two-null guard returns. -/
theorem cellEdited_blank_typed (pdDT : String → Option String) (r c : Nat)
    (s : Session) (hmode : s.editMode = true)
    (ht : (s.columnTypes.getD c none).isSome)
    (hold : getCell s.sheet.df r c .nullV = .nullV) :
    cellEdited pdDT r c "" s =
      { s with sheet := { s.sheet with text := setCell s.sheet.text r c "" } } := by
  obtain ⟨dt, hdt⟩ := Option.isSome_iff_exists.mp ht
  unfold cellEdited
  rw [if_neg (by simp [hmode])]
  dsimp only
  rw [if_neg (by rw [hold]; decide)]
  rw [hdt]
  dsimp only
  rw [show coerce pdDT (pyStrip "") dt = some Value.nullV from by
    unfold coerce; rw [if_pos (by decide : pyStrip "" = "")]]
  dsimp only
  rw [if_pos (by rw [hold]; decide)]

theorem cutStep_spec (pdDT : String → Option String) (st : Session)
    (p : Nat × Nat) (hmode : st.editMode = true)
    (ht : (st.columnTypes.getD p.2 none).isSome) :
    (cutStep pdDT st p).stack.undoStack =
      EditCommand.mk [(p.1, p.2, getCell st.sheet.df p.1 p.2 .nullV, .nullV)]
        :: st.stack.undoStack ∧
    (cutStep pdDT st p).editMode = true ∧
    (cutStep pdDT st p).columnTypes = st.columnTypes := by
  unfold cutStep
  dsimp only
  split
  · exact ⟨rfl, hmode, rfl⟩
  · rw [cellEdited_blank_typed pdDT p.1 p.2]
    · exact ⟨rfl, hmode, rfl⟩
    · exact hmode
    · exact ht
    · exact getCell_setCell_same _ _ _ _

theorem cutCells_fold_spec (pdDT : String → Option String) :
    ∀ (sel : List (Nat × Nat)) (s : Session), s.editMode = true →
      (∀ p ∈ sel, (s.columnTypes.getD p.2 none).isSome) →
      ∃ cmds : List EditCommand,
        (sel.foldl (cutStep pdDT) s).stack.undoStack
            = cmds ++ s.stack.undoStack ∧
        cmds.length = sel.length ∧
        (∀ cmd ∈ cmds, cmd.changes.length = 1) ∧
        (sel.foldl (cutStep pdDT) s).editMode = true
  | [], s, hmode, _ => ⟨[], rfl, rfl, by simp, hmode⟩
  | p :: rest, s, hmode, ht => by
    obtain ⟨hstack, hmode', htypes'⟩ :=
      cutStep_spec pdDT s p hmode (ht p (List.mem_cons_self _ _))
    obtain ⟨cmds, h1, h2, h3, h4⟩ :=
      cutCells_fold_spec pdDT rest (cutStep pdDT s p) hmode'
        (fun q hq => by
          rw [htypes']
          exact ht q (List.mem_cons_of_mem _ hq))
    refine ⟨cmds ++
      [⟨[(p.1, p.2, getCell s.sheet.df p.1 p.2 .nullV, .nullV)]⟩], ?_, ?_, ?_, h4⟩
    · rw [show (p :: rest).foldl (cutStep pdDT) s
          = rest.foldl (cutStep pdDT) (cutStep pdDT s p) from rfl]
      rw [h1, hstack, List.append_assoc]
      rfl
    · simp [h2]
    · intro cmd hm
      rcases List.mem_append.mp hm with hm1 | hm2
      · exact h3 cmd hm1
      · rw [List.mem_singleton.mp hm2]
        rfl

/-- Each `undo_edit` call pops exactly one command (or nothing), so `k`
calls leave the undo stack without its first `k` entries. -/
theorem undoTimes_stack_drop :
    ∀ (k : Nat) (s : Session), s.editMode = true →
      (undoTimes k s).stack.undoStack = s.stack.undoStack.drop k ∧
      (undoTimes k s).editMode = true
  | 0, s, hmode => ⟨by simp [undoTimes], hmode⟩
  | k + 1, s, hmode => by
    show (undoTimes k (undoEdit s)).stack.undoStack = _ ∧
      (undoTimes k (undoEdit s)).editMode = true
    cases hu : s.stack.undoStack with
    | nil =>
      have hid : undoEdit s = s := by
        unfold undoEdit
        rw [if_neg (by simp [hmode]), hu]
      rw [hid]
      obtain ⟨h1, h2⟩ := undoTimes_stack_drop k s hmode
      exact ⟨by rw [h1, hu]; simp, h2⟩
    | cons cmd rest =>
      have hstep : (undoEdit s).stack.undoStack = rest ∧
          (undoEdit s).editMode = true := by
        unfold undoEdit
        rw [if_neg (by simp [hmode]), hu]
        rw [updateColumnTotals_stack, updateColumnTotals_editMode]
        exact ⟨rfl, hmode⟩
      obtain ⟨h1, h2⟩ := undoTimes_stack_drop k (undoEdit s) hstep.2
      refine ⟨?_, h2⟩
      rw [h1, hstep.1]
      rfl

/-- A column of one cut-selected cell without a registered dtype: the
`setText('')` in the cut loop re-enters `on_cell_changed`, which misses
the dtype, fails its string no-change test against `str(None)`, and
pushes a second command for the same cell. -/
def c9Session : Session where
  sheet := ⟨[[.strV "x"]], [["x"]]⟩
  columnTypes := [none]
  cols := 1
  stack := ⟨[], []⟩
  modified := false
  modifiedCells := []
  editMode := true
  filters := []
  hidden := [false]
  sortStates := []
  appliedSort := none
  currentFile := none
  totalsRow := []

/-- C9 counterexample: cutting a single cell (N = 1) whose column has no
registered dtype pushes TWO commands, not one — the re-entrant change
handler commits an extra `(None, '')` edit — so undoing this cut takes
two invocations, not N = 1. -/
theorem c9_counterexample :
    (cutCells (fun _ => none) [(0, 0)] c9Session).stack.undoStack.length = 2 ∧
    (cutCells (fun _ => none) [(0, 0)] c9Session).stack.undoStack.length
      ≠ [(0, 0)].length := by
  decide

/-- C9 (amended): for a selection of N cells all of whose columns have a
registered dtype, cut pushes exactly N separate one-triple commands
(one per cell), so with a previously empty history exactly N undo
invocations exhaust `can_undo()`; whereas delete-selection pushes at
most ONE command — a single multi-triple command holding every non-null
selected cell, nothing at all if every cell was already null — and
paste likewise pushes at most one (multi-triple) command.  (For a
column whose dtype lookup misses, the cut loop's re-entrant change
handler pushes one extra command per cell — see the counterexample.) -/
theorem c9_amended (pdDT : String → Option String) (sel : List (Nat × Nat))
    (s : Session) (hmode : s.editMode = true)
    (htyped : ∀ p ∈ sel, (s.columnTypes.getD p.2 none).isSome) :
    (∃ cmds : List EditCommand,
      (cutCells pdDT sel s).stack.undoStack = cmds ++ s.stack.undoStack ∧
      cmds.length = sel.length ∧
      (∀ cmd ∈ cmds, cmd.changes.length = 1)) ∧
    (s.stack.undoStack = [] → ∀ k : Nat,
      (undoTimes k (cutCells pdDT sel s)).stack.canUndo
        = decide (k < sel.length)) ∧
    (deleteChanges s sel = [] → deleteSelected sel s = s) ∧
    (deleteChanges s sel ≠ [] →
      (deleteSelected sel s).stack.undoStack
        = EditCommand.mk (deleteChanges s sel) :: s.stack.undoStack) ∧
    (∀ (ranges : List SelRange) (data : List (List String)),
      (pasteCells pdDT ranges data s).stack.undoStack = s.stack.undoStack ∨
      ∃ chs, (pasteCells pdDT ranges data s).stack.undoStack
        = EditCommand.mk chs :: s.stack.undoStack) := by
  have hcut : cutCells pdDT sel s = sel.foldl (cutStep pdDT) s := by
    unfold cutCells
    rw [if_neg (by simp [hmode])]
  obtain ⟨cmds, hc1, hc2, hc3, hc4⟩ := cutCells_fold_spec pdDT sel s hmode htyped
  refine ⟨⟨cmds, by rw [hcut]; exact hc1, hc2, hc3⟩, ?_, ?_, ?_, ?_⟩
  · intro hemp k
    obtain ⟨hd1, _⟩ := undoTimes_stack_drop k (cutCells pdDT sel s)
      (by rw [hcut]; exact hc4)
    rw [CommandStack.canUndo, hd1, hcut, hc1, hemp, List.append_nil]
    cases hlt : decide (k < sel.length) with
    | true =>
      have : k < cmds.length := by rw [hc2]; exact of_decide_eq_true hlt
      simp [List.drop_eq_nil_iff]
      omega
    | false =>
      have : cmds.length ≤ k := by
        rw [hc2]
        exact Nat.le_of_not_lt (of_decide_eq_false hlt)
      simp [List.drop_eq_nil_iff]
      omega
  · intro hemp
    unfold deleteSelected
    rw [if_neg (by simp [hmode])]
    dsimp only
    rw [hemp]
    rfl
  · intro hne
    unfold deleteSelected
    rw [if_neg (by simp [hmode])]
    dsimp only
    rw [if_neg (by simpa using hne)]
    rw [updateColumnTotals_stack]
    rfl
  · intro ranges data
    unfold pasteCells
    rw [if_neg (by simp [hmode])]
    dsimp only
    split
    · split
      · exact Or.inl rfl
      · exact Or.inr ⟨_, by rw [updateColumnTotals_stack]; rfl⟩
    · split
      · exact Or.inl rfl
      · exact Or.inr ⟨_, by rw [updateColumnTotals_stack]; rfl⟩

/-- C9 witness: cutting the two cells of the demonstration row takes
exactly two undo invocations to exhaust. -/
theorem c9_witness :
    (undoTimes 2 (cutCells (fun _ => none) [(0, 0), (0, 1)]
      demoSession)).stack.canUndo = false :=
  ((c9_amended (fun _ => none) [(0, 0), (0, 1)] demoSession rfl
    (by decide)).2.1 rfl 2)

/-- Display/store consistency: every item shows exactly the shared
formatting of the frame value beneath it.  Holds after a load and is
preserved by committed or rejected edits (not by silently skipped
ones — the crux of the C1 counterexample). -/
def TextInv (sh : Sheet) : Prop :=
  ∀ r c : Nat, getCell sh.text r c "" = render (getCell sh.df r c .nullV)

/-- Frame and table have the same row count and per-row width. -/
def ShapeOk (sh : Sheet) : Prop :=
  sh.text.length = sh.df.length ∧
  ∀ i, (sh.text.getD i []).length = (sh.df.getD i []).length

/-- Bounded (decidable) form of `ShapeOk`. -/
def ShapeOkB (sh : Sheet) : Prop :=
  sh.text.length = sh.df.length ∧
  ∀ i < sh.df.length, (sh.text.getD i []).length = (sh.df.getD i []).length

/-- Bounded (decidable) form of `TextInv`. -/
def TextInvB (sh : Sheet) : Prop :=
  ∀ r < sh.df.length, ∀ c < (sh.df.getD r []).length,
    getCell sh.text r c "" = render (getCell sh.df r c .nullV)

instance (sh : Sheet) : Decidable (ShapeOkB sh) := by
  unfold ShapeOkB; infer_instance

instance (sh : Sheet) : Decidable (TextInvB sh) := by
  unfold TextInvB; infer_instance

theorem shapeOk_of_b (sh : Sheet) (h : ShapeOkB sh) : ShapeOk sh := by
  refine ⟨h.1, fun i => ?_⟩
  by_cases hi : i < sh.df.length
  · exact h.2 i hi
  · rw [List.getD_eq_default _ _ (Nat.le_of_not_lt hi),
      List.getD_eq_default _ _ (by rw [h.1]; exact Nat.le_of_not_lt hi)]
    rfl

theorem textInv_of_b (sh : Sheet) (hs : ShapeOk sh) (h : TextInvB sh) :
    TextInv sh := by
  intro r c
  by_cases hr : r < sh.df.length
  · by_cases hc : c < (sh.df.getD r []).length
    · exact h r hr c hc
    · unfold getCell
      rw [List.getD_eq_default (sh.text.getD r []) _
          (by rw [hs.2 r]; exact Nat.le_of_not_lt hc),
        List.getD_eq_default (sh.df.getD r []) _ (Nat.le_of_not_lt hc)]
      rfl
  · unfold getCell
    rw [List.getD_eq_default sh.text _
        (by rw [hs.1]; exact Nat.le_of_not_lt hr),
      List.getD_eq_default sh.df _ (Nat.le_of_not_lt hr)]
    rfl

/-- Replay the undo halves of a command list (top of stack first). -/
def undoCmds (cmds : List EditCommand) (sh : Sheet) : Sheet :=
  cmds.foldl (fun sh c => applyUndoCmd c sh) sh

/-- Replay the redo halves of a command list (head first). -/
def redoCmds (cmds : List EditCommand) (sh : Sheet) : Sheet :=
  cmds.foldl (fun sh c => applyRedoCmd c sh) sh

/-- The invariant tying a session reached by clean edits back to its
pre-edit ancestor `s₀`: edit mode is still on, shapes and column types
are unchanged, display matches the frame, the redo stack is empty,
undoing the whole stack replays back to `s₀`'s sheet, and redoing the
stack bottom-up replays `s₀`'s sheet forward to the current one. -/
structure C1Inv (s₀ s : Session) : Prop where
  mode : s.editMode = true
  types : s.columnTypes = s₀.columnTypes
  dfLen : s.sheet.df.length = s₀.sheet.df.length
  rowLen : ∀ i, (s.sheet.df.getD i []).length = (s₀.sheet.df.getD i []).length
  shape : ShapeOk s.sheet
  tinv : TextInv s.sheet
  redoE : s.stack.redoStack = []
  undoOk : undoCmds s.stack.undoStack s.sheet = s₀.sheet
  redoOk : redoCmds s.stack.undoStack.reverse s₀.sheet = s.sheet

/-- One edit of the claim's scope: in range, on a column with a
registered dtype, and really processed — its stripped text differs from
the stored value's `str` form (else the handler skips it, leaving the
typed text displayed), and its coerced value, when coercion even
succeeds, differs from the stored one (else the second skip fires). -/
def cleanEditB (pdDT : String → Option String) (s : Session)
    (e : Nat × Nat × String) : Bool :=
  decide (e.1 < s.sheet.df.length) &&
  decide (e.2.1 < (s.sheet.df.getD e.1 []).length) &&
  (match s.columnTypes.getD e.2.1 none with
   | none => false
   | some dt =>
     (pyStrip (pyStr (getCell s.sheet.df e.1 e.2.1 .nullV)) != pyStrip e.2.2) &&
     (match coerce pdDT (pyStrip e.2.2) dt with
      | none => true
      | some v =>
        !(isNa v && isNa (getCell s.sheet.df e.1 e.2.1 .nullV)) &&
        !(pyEq v (getCell s.sheet.df e.1 e.2.1 .nullV))))

/-- Every edit in the sequence is clean in the state it executes in. -/
def cleanRunB (pdDT : String → Option String) :
    List (Nat × Nat × String) → Session → Bool
  | [], _ => true
  | e :: rest, s =>
    cleanEditB pdDT s e &&
      cleanRunB pdDT rest (cellEdited pdDT e.1 e.2.1 e.2.2 s)

/-- Fold a sequence of user cell edits through the change handler. -/
def applyEdits (pdDT : String → Option String)
    (edits : List (Nat × Nat × String)) (s : Session) : Session :=
  edits.foldl (fun st e => cellEdited pdDT e.1 e.2.1 e.2.2 st) s

/-- One clean edit preserves the round-trip invariant: a rejected edit
changes nothing at all, and a committed edit pushes a one-triple command
whose undo half exactly reverts it and whose redo half exactly replays
it. -/
theorem cellEdited_inv (pdDT : String → Option String) (s₀ s : Session)
    (e : Nat × Nat × String) (hInv : C1Inv s₀ s)
    (hc : cleanEditB pdDT s e = true) :
    C1Inv s₀ (cellEdited pdDT e.1 e.2.1 e.2.2 s) := by
  simp only [cleanEditB, Bool.and_eq_true, decide_eq_true_eq] at hc
  obtain ⟨⟨hr, hcc⟩, hrest⟩ := hc
  have hrT : e.1 < s.sheet.text.length := by rw [hInv.shape.1]; exact hr
  have hcT : e.2.1 < (s.sheet.text.getD e.1 []).length := by
    rw [hInv.shape.2 e.1]; exact hcc
  cases hdt : s.columnTypes.getD e.2.1 none with
  | none => rw [hdt] at hrest; exact absurd hrest (by simp)
  | some dt =>
    rw [hdt] at hrest
    simp only [Bool.and_eq_true, bne_iff_ne] at hrest
    obtain ⟨hne, hco⟩ := hrest
    unfold cellEdited
    rw [if_neg (by simp [hInv.mode])]
    dsimp only
    rw [if_neg hne, hdt]
    dsimp only
    cases hcoe : coerce pdDT (pyStrip e.2.2) dt with
    | none =>
      dsimp only
      rw [setCell_setCell]
      rw [show setCell s.sheet.text e.1 e.2.1
            (render (getCell s.sheet.df e.1 e.2.1 .nullV)) = s.sheet.text from by
        rw [← hInv.tinv e.1 e.2.1]
        exact setCell_getCell_self _ _ _ _ hrT hcT]
      exact hInv
    | some v =>
      rw [hcoe] at hco
      simp only [Bool.and_eq_true, Bool.not_eq_true'] at hco
      obtain ⟨hna, hpe⟩ := hco
      dsimp only
      rw [if_neg (by rw [hna]; exact Bool.false_ne_true), if_neg (by rw [hpe]; exact Bool.false_ne_true)]
      rw [setCell_setCell]
      have hundo : applyUndoCmd
          ⟨[(e.1, e.2.1, getCell s.sheet.df e.1 e.2.1 .nullV, v)]⟩
          ⟨setCell s.sheet.df e.1 e.2.1 v,
           setCell s.sheet.text e.1 e.2.1 (render v)⟩ = s.sheet := by
        show Sheet.mk
            (setCell (setCell s.sheet.df e.1 e.2.1 v) e.1 e.2.1
              (getCell s.sheet.df e.1 e.2.1 .nullV))
            (setCell (setCell s.sheet.text e.1 e.2.1 (render v)) e.1 e.2.1
              (render (getCell s.sheet.df e.1 e.2.1 .nullV))) = s.sheet
        rw [setCell_setCell, setCell_setCell,
          setCell_getCell_self _ _ _ _ hr hcc, ← hInv.tinv e.1 e.2.1,
          setCell_getCell_self _ _ _ _ hrT hcT]
      refine ⟨?_, ?_, ?_, ?_, ⟨?_, ?_⟩, ?_, ?_, ?_, ?_⟩
      · rw [updateColumnTotals_editMode]; exact hInv.mode
      · rw [updateColumnTotals_columnTypes]; exact hInv.types
      · rw [updateColumnTotals_sheet]
        dsimp only
        rw [length_setCell]; exact hInv.dfLen
      · intro i
        rw [updateColumnTotals_sheet]
        dsimp only
        rw [rowlen_setCell]; exact hInv.rowLen i
      · rw [updateColumnTotals_sheet]
        dsimp only
        rw [length_setCell, length_setCell]; exact hInv.shape.1
      · intro i
        rw [updateColumnTotals_sheet]
        dsimp only
        rw [rowlen_setCell, rowlen_setCell]; exact hInv.shape.2 i
      · intro r' c'
        rw [updateColumnTotals_sheet]
        dsimp only
        by_cases hp : r' = e.1 ∧ c' = e.2.1
        · obtain ⟨rfl, rfl⟩ := hp
          rw [getCell_setCell_self _ _ _ _ _ hrT hcT,
            getCell_setCell_self _ _ _ _ _ hr hcc]
        · rw [getCell_setCell_ne _ _ _ _ _ _ _ hp,
            getCell_setCell_ne _ _ _ _ _ _ _ hp]
          exact hInv.tinv r' c'
      · rw [updateColumnTotals_stack]; rfl
      · rw [updateColumnTotals_stack, updateColumnTotals_sheet]
        show undoCmds (_ :: s.stack.undoStack) _ = s₀.sheet
        rw [show undoCmds
              (EditCommand.mk [(e.1, e.2.1, getCell s.sheet.df e.1 e.2.1 .nullV, v)]
                :: s.stack.undoStack)
              ⟨setCell s.sheet.df e.1 e.2.1 v,
               setCell s.sheet.text e.1 e.2.1 (render v)⟩
            = undoCmds s.stack.undoStack
              (applyUndoCmd
                ⟨[(e.1, e.2.1, getCell s.sheet.df e.1 e.2.1 .nullV, v)]⟩
                ⟨setCell s.sheet.df e.1 e.2.1 v,
                 setCell s.sheet.text e.1 e.2.1 (render v)⟩) from rfl]
        rw [hundo]
        exact hInv.undoOk
      · rw [updateColumnTotals_stack, updateColumnTotals_sheet]
        dsimp only
        rw [show (s.stack.push
              (EditCommand.mk
                [(e.1, e.2.1, getCell s.sheet.df e.1 e.2.1 .nullV, v)])).undoStack
            = EditCommand.mk
                [(e.1, e.2.1, getCell s.sheet.df e.1 e.2.1 .nullV, v)]
              :: s.stack.undoStack from rfl]
        rw [List.reverse_cons]
        unfold redoCmds
        rw [List.foldl_append]
        show applyRedoCmd _ (redoCmds s.stack.undoStack.reverse s₀.sheet) = _
        rw [hInv.redoOk]
        rfl

theorem applyEdits_inv (pdDT : String → Option String) (s₀ : Session) :
    ∀ (edits : List (Nat × Nat × String)) (s : Session),
      C1Inv s₀ s → cleanRunB pdDT edits s = true →
      C1Inv s₀ (applyEdits pdDT edits s)
  | [], _, h, _ => h
  | e :: rest, s, h, hc => by
    simp only [cleanRunB, Bool.and_eq_true] at hc
    exact applyEdits_inv pdDT s₀ rest _
      (cellEdited_inv pdDT s₀ s e h hc.1) hc.2

/-- Undoing as many times as the stack is deep replays every command's
undo half (top first), empties the undo stack and stacks everything on
the redo side in reverse. -/
theorem undoTimes_full_spec :
    ∀ (us : List EditCommand) (s : Session), s.editMode = true →
      s.stack.undoStack = us →
      (undoTimes us.length s).sheet = undoCmds us s.sheet ∧
      (undoTimes us.length s).stack
        = ⟨[], us.reverse ++ s.stack.redoStack⟩ ∧
      (undoTimes us.length s).editMode = true
  | [], s, hmode, hu =>
    ⟨rfl, by
      show s.stack = _
      rw [show s.stack = ⟨s.stack.undoStack, s.stack.redoStack⟩ from rfl, hu]
      simp, hmode⟩
  | cmd :: rest, s, hmode, hu => by
    have hstep : undoEdit s = updateColumnTotals
        { s with sheet := applyUndoCmd cmd s.sheet,
                 stack := ⟨rest, cmd :: s.stack.redoStack⟩,
                 modified := !rest.isEmpty,
                 modifiedCells := cellsOfCmds rest } := by
      unfold undoEdit
      rw [if_neg (by simp [hmode]), hu]
    have hmode' : (undoEdit s).editMode = true := by
      rw [hstep, updateColumnTotals_editMode]; exact hmode
    have hstack' : (undoEdit s).stack.undoStack = rest := by
      rw [hstep, updateColumnTotals_stack]
    obtain ⟨h1, h2, h3⟩ := undoTimes_full_spec rest (undoEdit s) hmode' hstack'
    refine ⟨?_, ?_, h3⟩
    · show (undoTimes rest.length (undoEdit s)).sheet = _
      rw [h1, hstep, updateColumnTotals_sheet]
      rfl
    · show (undoTimes rest.length (undoEdit s)).stack = _
      rw [h2, hstep, updateColumnTotals_stack]
      dsimp only
      rw [List.reverse_cons, List.append_assoc]
      rfl

/-- Redoing as many times as the redo stack is deep replays every
command's redo half (head first) and moves everything back to the undo
side. -/
theorem redoTimes_full_spec :
    ∀ (rs : List EditCommand) (s : Session), s.editMode = true →
      s.stack.redoStack = rs →
      (redoTimes rs.length s).sheet = redoCmds rs s.sheet ∧
      (redoTimes rs.length s).stack
        = ⟨rs.reverse ++ s.stack.undoStack, []⟩ ∧
      (redoTimes rs.length s).editMode = true
  | [], s, hmode, hr =>
    ⟨rfl, by
      show s.stack = _
      rw [show s.stack = ⟨s.stack.undoStack, s.stack.redoStack⟩ from rfl, hr]
      simp, hmode⟩
  | cmd :: rest, s, hmode, hr => by
    have hstep : redoEdit s = updateColumnTotals
        { s with sheet := applyRedoCmd cmd s.sheet,
                 stack := ⟨cmd :: s.stack.undoStack, rest⟩,
                 modified := true,
                 modifiedCells :=
                   cmd.changes.foldl (fun acc ch => addCell (ch.1, ch.2.1) acc)
                     s.modifiedCells } := by
      unfold redoEdit
      rw [if_neg (by simp [hmode]), hr]
    have hmode' : (redoEdit s).editMode = true := by
      rw [hstep, updateColumnTotals_editMode]; exact hmode
    have hstack' : (redoEdit s).stack.redoStack = rest := by
      rw [hstep, updateColumnTotals_stack]
    obtain ⟨h1, h2, h3⟩ := redoTimes_full_spec rest (redoEdit s) hmode' hstack'
    refine ⟨?_, ?_, h3⟩
    · show (redoTimes rest.length (redoEdit s)).sheet = _
      rw [h1, hstep, updateColumnTotals_sheet]
      rfl
    · show (redoTimes rest.length (redoEdit s)).stack = _
      rw [h2, hstep, updateColumnTotals_stack]
      dsimp only
      rw [List.reverse_cons, List.append_assoc]
      rfl

/-- A one-cell table: an `int64` column holding 1000, displayed with the
shared formatting, edit mode on, no history. -/
def c1Session : Session where
  sheet := ⟨[[.intV 1000]], [["1,000"]]⟩
  columnTypes := [some .int64]
  cols := 1
  stack := ⟨[], []⟩
  modified := false
  modifiedCells := []
  editMode := true
  filters := []
  hidden := [false]
  sortStates := []
  appliedSort := none
  currentFile := none
  totalsRow := []

/-- C1 counterexample: typing `1000.00` into the cell displaying `1,000`
coerces to the unchanged value 1000, so the handler skips the edit as a
no-change — but the typed text stays on screen and no command is pushed.
`undo()` is immediately impossible (`can_undo()` is false), yet the
displayed text is NOT the pre-edit display: undo-until-exhausted fails
to restore the displayed table text. -/
theorem c1_counterexample :
    (undoAll (applyEdits (fun _ => none) [(0, 0, "1000.00")]
        c1Session)).stack.canUndo = false ∧
    (undoAll (applyEdits (fun _ => none) [(0, 0, "1000.00")]
        c1Session)).sheet.df = c1Session.sheet.df ∧
    (undoAll (applyEdits (fun _ => none) [(0, 0, "1000.00")]
        c1Session)).sheet.text ≠ c1Session.sheet.text := by
  decide

/-- C1 (amended): for a sequence of single-cell edits in edit mode,
starting from an empty history with the display matching the frame, in
which every edit is in range, on a column with a registered dtype, and
actually processed rather than silently skipped as a no-change (its
stripped text differs from the stored value's `str` form and its coerced
value, when coercion succeeds, differs from the stored value — see the
counterexample for a skipped edit), undoing until `can_undo()` is false
restores every cell, frame value and displayed text alike, to its exact
pre-edit state, and then redoing until `can_redo()` is false restores
the exact post-edit state. -/
theorem c1_undo_redo_roundtrip (pdDT : String → Option String)
    (edits : List (Nat × Nat × String)) (s₀ : Session)
    (hmode : s₀.editMode = true)
    (hstack : s₀.stack = ⟨[], []⟩)
    (hshape : ShapeOkB s₀.sheet)
    (htinv : TextInvB s₀.sheet)
    (hclean : cleanRunB pdDT edits s₀ = true) :
    (undoAll (applyEdits pdDT edits s₀)).stack.canUndo = false ∧
    (undoAll (applyEdits pdDT edits s₀)).sheet = s₀.sheet ∧
    (redoAll (undoAll (applyEdits pdDT edits s₀))).stack.canRedo = false ∧
    (redoAll (undoAll (applyEdits pdDT edits s₀))).sheet
      = (applyEdits pdDT edits s₀).sheet := by
  have hshape' := shapeOk_of_b _ hshape
  have base : C1Inv s₀ s₀ :=
    { mode := hmode, types := rfl, dfLen := rfl, rowLen := fun i => rfl,
      shape := hshape', tinv := textInv_of_b _ hshape' htinv,
      redoE := by rw [hstack],
      undoOk := by rw [hstack]; rfl,
      redoOk := by rw [hstack]; rfl }
  have hinv := applyEdits_inv pdDT s₀ edits s₀ base hclean
  obtain ⟨hu1, hu2, hu3⟩ := undoTimes_full_spec
    (applyEdits pdDT edits s₀).stack.undoStack (applyEdits pdDT edits s₀)
    hinv.mode rfl
  have hUA : undoAll (applyEdits pdDT edits s₀)
      = undoTimes (applyEdits pdDT edits s₀).stack.undoStack.length
          (applyEdits pdDT edits s₀) := rfl
  have hS2sheet : (undoAll (applyEdits pdDT edits s₀)).sheet = s₀.sheet := by
    rw [hUA, hu1, hinv.undoOk]
  have hS2stack : (undoAll (applyEdits pdDT edits s₀)).stack
      = ⟨[], (applyEdits pdDT edits s₀).stack.undoStack.reverse⟩ := by
    rw [hUA, hu2, hinv.redoE, List.append_nil]
  have hS2mode : (undoAll (applyEdits pdDT edits s₀)).editMode = true := by
    rw [hUA]; exact hu3
  obtain ⟨hr1, hr2, hr3⟩ := redoTimes_full_spec
    ((undoAll (applyEdits pdDT edits s₀)).stack.redoStack)
    (undoAll (applyEdits pdDT edits s₀)) hS2mode rfl
  have hRA : redoAll (undoAll (applyEdits pdDT edits s₀))
      = redoTimes
          (undoAll (applyEdits pdDT edits s₀)).stack.redoStack.length
          (undoAll (applyEdits pdDT edits s₀)) := rfl
  have hredo : (undoAll (applyEdits pdDT edits s₀)).stack.redoStack
      = (applyEdits pdDT edits s₀).stack.undoStack.reverse := by
    rw [hS2stack]
  refine ⟨?_, hS2sheet, ?_, ?_⟩
  · rw [hS2stack]; rfl
  · rw [hRA, hr2]; rfl
  · rw [hRA, hr1, hredo, hS2sheet, hinv.redoOk]

/-- C1 witness: one committed edit (`2` over `1,000`), undone and
redone. -/
theorem c1_witness :
    (undoAll (applyEdits (fun _ => none) [(0, 0, "2")] c1Session)).sheet
        = c1Session.sheet ∧
    (redoAll (undoAll (applyEdits (fun _ => none) [(0, 0, "2")]
        c1Session))).sheet
      = (applyEdits (fun _ => none) [(0, 0, "2")] c1Session).sheet :=
  ⟨(c1_undo_redo_roundtrip (fun _ => none) [(0, 0, "2")] c1Session rfl rfl
      (by decide) (by decide) (by decide)).2.1,
   (c1_undo_redo_roundtrip (fun _ => none) [(0, 0, "2")] c1Session rfl rfl
      (by decide) (by decide) (by decide)).2.2.2⟩
